import Mathlib

set_option autoImplicit false

/-!
Verification of the incremental Dijkstra / A* grid search from
`src/main.rs` (struct `Grid` and its methods).  The Rust code is embedded
shallowly: `u32` values become `ℕ` (the dimensions and distances reached by
the program stay far below `2^32`, so wrap-around never occurs on the
states the claims quantify over), `Vec<Vec<CellState>>` becomes
`List (List CellState)`, and the `BinaryHeap` becomes a list together with
a removal-of-the-maximum function that mirrors the derived `Ord`.
Functions that can panic in Rust (`unwrap`, `assert!`, `unreachable!`) are
embedded as `Option`-valued functions where `none` means a panic, and the
`while` loop of `color_path` takes explicit fuel (the Rust loop provably
marks pairwise distinct cells, so a fuel larger than the number of marks
reproduces the Rust behaviour exactly; sufficiency of the chosen fuel is
proved below).  The floating-point computations of the source
(`draw_obstacle`'s slope and the Euclidean heuristic) are handled as
documented at the respective definitions.
-/

/-- Cell classification, from `enum CellState` in the source. -/
inductive CellState where
  | Unknown : CellState
  | Unvisited : CellState
  | Visited : ℕ → CellState
  | Obstacle : CellState
  | OnPath : CellState
deriving DecidableEq, Repr

/-- Heap entry, from `struct UnvisitedState`: `dist` is the priority key
(which includes the heuristic in A* mode), `actual_dist` the real path
length, `cell` the coordinate. -/
structure UnvisitedState where
  dist : ℕ
  actual_dist : ℕ
  cell : ℕ × ℕ
deriving DecidableEq, Repr

/-- Lexicographic comparison of coordinates, matching the derived `Ord`
of Rust tuples `(u32, u32)`. -/
def cellCmp (a b : ℕ × ℕ) : Ordering :=
  (compare a.1 b.1).then (compare a.2 b.2)

/-- The `impl Ord for UnvisitedState` of the source:
`other.dist.cmp(&self.dist).then(other.actual_dist.cmp(&self.actual_dist))
.then_with(|| self.cell.cmp(&other.cell))`.
Note the first two comparisons are reversed (smaller keys are greater in
this order) while the coordinate comparison is not reversed. -/
def usCmp (a b : UnvisitedState) : Ordering :=
  ((compare b.dist a.dist).then (compare b.actual_dist a.actual_dist)).then
    (cellCmp a.cell b.cell)

/-- Removal of a maximum element (w.r.t. `usCmp`) from the list modelling
the `BinaryHeap`: `BinaryHeap::pop` returns a greatest element.  Elements
equal under `usCmp` are identical (the order is total on the field
tuples), so which occurrence is removed does not matter. -/
def popMax : List UnvisitedState → Option (UnvisitedState × List UnvisitedState)
  | [] => none
  | x :: xs =>
    match popMax xs with
    | none => some (x, xs)
    | some (m, rest) =>
      if usCmp x m = Ordering.lt then some (m, x :: rest) else some (x, xs)

/-- The `Grid` struct of the source. -/
structure Grid where
  enable_astar : Bool
  cells : List (List CellState)
  unvisited : List UnvisitedState
  start : ℕ × ℕ
  current : ℕ × ℕ
  current_dist : ℕ
  goal : ℕ × ℕ
deriving DecidableEq, Repr

namespace Grid

/-- `Grid::width`. -/
def width (g : Grid) : ℕ := g.cells.length

/-- `Grid::height`: length of column 0, or 0 when there are no columns. -/
def height (g : Grid) : ℕ := (g.cells.head?.map List.length).getD 0

/-- `Grid::get_cell`: bounds-checked read, `none` when out of bounds. -/
def get_cell (g : Grid) (c : ℕ × ℕ) : Option CellState :=
  g.cells[c.1]?.bind fun col => col[c.2]?

/-- `Grid::set_cell`: bounds-checked write that silently does nothing when
out of bounds (`List.set` leaves the list unchanged for an out-of-range
index, exactly like the `get_mut ... map` chain in the source). -/
def set_cell (g : Grid) (c : ℕ × ℕ) (s : CellState) : Grid :=
  match g.cells[c.1]? with
  | none => g
  | some col => { g with cells := g.cells.set c.1 (col.set c.2 s) }

/-- `Grid::new`.  The two `assert!`s on the bounds of `start` and `goal`
are embedded as the `Option`: `none` is the construction-time panic.
Note the source pushes nothing onto the heap here; it only marks the
start cell `Unvisited`. -/
def new (w h : ℕ) (start goal : ℕ × ℕ) (enable_astar : Bool) : Option Grid :=
  if start.1 < w ∧ start.2 < h then
    if goal.1 < w ∧ goal.2 < h then
      some (set_cell
        { enable_astar := enable_astar
          cells := List.replicate w (List.replicate h CellState.Unknown)
          unvisited := []
          start := start
          current := start
          current_dist := 0
          goal := goal } start CellState.Unvisited)
    else none
  else none

/-- `Grid::draw_obstacle`, parametrised by the function `y_of` giving the
`y` sample for each `x` of the half-open range `[start.x, end.x)`.  In the
source `y_of x = round (m * (x - start.x)) + start.y` is computed in `f64`
arithmetic (`m` the slope); keeping it abstract lets every theorem below
hold for the exact floating-point behaviour, whatever it rounds to.
Concrete instantiations below only use slopes whose float computation is
exact (slope `0`), stated at each use. -/
def draw_obstacle_with (g : Grid) (s e : ℕ × ℕ) (y_of : ℕ → ℕ) : Grid :=
  (List.range' s.1 (e.1 - s.1)).foldl
    (fun g x => g.set_cell (x, y_of x) CellState.Obstacle) g

/-- `Grid::get_neighbors`: up, down, left, right, in this order, with the
bounds checks of the source (`height - 1` and `width - 1` do not underflow
because every constructed grid has positive dimensions). -/
def get_neighbors (g : Grid) (cell : ℕ × ℕ) : List (ℕ × ℕ) :=
  (if 0 < cell.2 then [(cell.1, cell.2 - 1)] else []) ++
  (if cell.2 < g.height - 1 then [(cell.1, cell.2 + 1)] else []) ++
  (if 0 < cell.1 then [(cell.1 - 1, cell.2)] else []) ++
  (if cell.1 < g.width - 1 then [(cell.1 + 1, cell.2)] else [])

/-- Largest `k ≤ m` with `k * k ≤ n` (`0` when none), by structural
recursion so that the kernel can evaluate it. -/
def isqrtAux (n : ℕ) : ℕ → ℕ
  | 0 => 0
  | k + 1 => if (k + 1) * (k + 1) ≤ n then k + 1 else isqrtAux n k

/-- Integer square root (floor), kernel-evaluable; proved equal to
`Nat.sqrt` below. -/
def isqrt (n : ℕ) : ℕ := isqrtAux n n

/-- The floored Euclidean distance to the goal used by `Grid::get_dist` in
A* mode.  The source computes `(((dx*dx + dy*dy) as f64).sqrt()) as u32`;
for every value reachable here the `f64` square root is exact enough that
the truncation equals the integer square root (IEEE `sqrt` is correctly
rounded and the argument is an exact integer far below `2^52`). -/
def euclid (goal c : ℕ × ℕ) : ℕ :=
  isqrt (((c.1 : ℤ) - (goal.1 : ℤ)).natAbs ^ 2 +
         ((c.2 : ℤ) - (goal.2 : ℤ)).natAbs ^ 2)

/-- `Grid::get_dist`: the priority key for a cell with actual distance
`dist`. -/
def get_dist (g : Grid) (cell : ℕ × ℕ) (dist : ℕ) : ℕ :=
  if g.enable_astar then dist + euclid g.goal cell else dist

/-- Heuristic summand of the priority key (`0` in pure Dijkstra mode). -/
def hg (g : Grid) (c : ℕ × ℕ) : ℕ :=
  if g.enable_astar then euclid g.goal c else 0

/-- One arm of the neighbour loop of `Grid::dijkstra_iteration`.  `none`
models a panic: the `unwrap` of `get_cell` on an out-of-bounds neighbour,
the `assert!(dist <= self.current_dist + 1)`, or the `unreachable!` of the
`OnPath` arm. -/
def processNeighbor (g : Grid) (n : ℕ × ℕ) : Option Grid :=
  match g.get_cell n with
  | none => none
  | some CellState.Unknown =>
    let dist := g.current_dist + 1
    let g' := g.set_cell n CellState.Unvisited
    some { g' with
      unvisited := ⟨g'.get_dist n dist, dist, n⟩ :: g'.unvisited }
  | some CellState.Unvisited => some g
  | some (CellState.Visited d) =>
    if d ≤ g.current_dist + 1 then some g else none
  | some CellState.Obstacle => some g
  | some CellState.OnPath => none

/-- The neighbour loop of `Grid::dijkstra_iteration`. -/
def processNeighbors (g : Grid) : List (ℕ × ℕ) → Option Grid
  | [] => some g
  | n :: ns =>
    match processNeighbor g n with
    | none => none
    | some g' => processNeighbors g' ns

/-- First minimal element by the second component, matching Rust's
`Iterator::min_by_key` (ties return the first element). -/
def minByDist : List ((ℕ × ℕ) × ℕ) → Option ((ℕ × ℕ) × ℕ)
  | [] => none
  | x :: xs =>
    match minByDist xs with
    | none => some x
    | some m => if m.2 < x.2 then some m else some x

/-- The `filter_map` over the neighbours of the cursor in
`Grid::color_path`, collecting `Visited` neighbours with their distances;
`none` models the panic of the `unwrap` inside the closure (out-of-bounds
neighbour). -/
def collectVisited (g : Grid) : List (ℕ × ℕ) → Option (List ((ℕ × ℕ) × ℕ))
  | [] => some []
  | c :: cs =>
    match g.get_cell c with
    | none => none
    | some (CellState.Visited d) =>
      (collectVisited g cs).map (fun r => (c, d) :: r)
    | some _ => collectVisited g cs

/-- The `while cursor != start` loop of `Grid::color_path`, with fuel.
`none` models either the `unwrap` panic (no `Visited` neighbour) or fuel
exhaustion; the fuel passed by `dijkstra_iteration` is proved sufficient
for every state the loop is actually invoked on. -/
def color_path_go : ℕ → Grid → ℕ × ℕ → Option Grid
  | 0, _, _ => none
  | fuel + 1, g, cursor =>
    if cursor = g.start then some g
    else
      let g' := g.set_cell cursor CellState.OnPath
      match collectVisited g' (g'.get_neighbors cursor) with
      | none => none
      | some cands =>
        match minByDist cands with
        | none => none
        | some nd => color_path_go fuel g' nd.1

/-- `Grid::color_path` (fuel-passing version of the `while` loop). -/
def color_path (fuel : ℕ) (g : Grid) : Option Grid :=
  if g.current = g.goal then color_path_go fuel g g.goal else some g

/-- `Grid::dijkstra_iteration`, one step of the search.  `none` models a
panic inside the step.  The fuel `current_dist + 2` given to `color_path`
is an upper bound on the number of loop iterations (proved below): the
reconstruction cursor starts at the goal and then strictly descends in
recorded distance starting from at most `current_dist - 1`. -/
def dijkstra_iteration (g : Grid) : Option Grid :=
  if g.current = g.goal then some g
  else
    match processNeighbors g (g.get_neighbors g.current) with
    | none => none
    | some g1 =>
      let g2 := g1.set_cell g1.current (CellState.Visited g1.current_dist)
      match popMax g2.unvisited with
      | none => some g2
      | some er =>
        let g3 := { g2 with
          unvisited := er.2
          current := er.1.cell
          current_dist := er.1.actual_dist }
        if g3.current = g3.goal then color_path (g3.current_dist + 2) g3
        else some g3

/-- Iterated steps. -/
def stepN (g : Grid) : ℕ → Option Grid
  | 0 => some g
  | n + 1 =>
    match g.dijkstra_iteration with
    | none => none
    | some g' => stepN g' n

/-- Number of cells currently marked `OnPath`. -/
def countOnPath (g : Grid) : ℕ :=
  (g.cells.map (fun col => col.countP (fun s => s = CellState.OnPath))).sum

end Grid

/-- Manhattan distance between coordinates. -/
def manhattan (p q : ℕ × ℕ) : ℕ :=
  ((p.1 : ℤ) - (q.1 : ℤ)).natAbs + ((p.2 : ℤ) - (q.2 : ℤ)).natAbs

/-- States produced by `Grid::new` followed by any number of
`draw_obstacle` calls (the obstacles of the documented lifecycle are
painted before the first step). -/
inductive Init : Grid → Prop where
  | mk : ∀ w h s t m g, Grid.new w h s t m = some g → Init g
  | obst : ∀ g a b f, Init g → Init (Grid.draw_obstacle_with g a b f)

/-- Reachable states: an initialised grid after any number of successful
steps. -/
inductive Reachable : Grid → Prop where
  | init : ∀ g, Init g → Reachable g
  | step : ∀ g g', Reachable g → g.dijkstra_iteration = some g' → Reachable g'

/-- Reachable states of an obstacle-free run: `Grid::new` followed only by
steps. -/
inductive ReachableNO : Grid → Prop where
  | init : ∀ w h s t m g, Grid.new w h s t m = some g → ReachableNO g
  | step : ∀ g g', ReachableNO g → g.dijkstra_iteration = some g' → ReachableNO g'

/-! ### Basic notions: bounds, shape, adjacency, cursor key -/

/-- In-bounds predicate for a coordinate. -/
def Grid.inb (g : Grid) (c : ℕ × ℕ) : Prop := c.1 < g.width ∧ c.2 < g.height

instance (g : Grid) (c : ℕ × ℕ) : Decidable (g.inb c) := by
  unfold Grid.inb; infer_instance

/-- Well-formedness of the cell matrix: positive dimensions and a
rectangular shape. -/
def Grid.Shape (g : Grid) : Prop :=
  0 < g.width ∧ 0 < g.height ∧ ∀ col ∈ g.cells, col.length = g.height

/-- Grid-graph adjacency: one axis-aligned unit step. -/
def adj (c n : ℕ × ℕ) : Prop :=
  (c.1 = n.1 ∧ (c.2 = n.2 + 1 ∨ n.2 = c.2 + 1)) ∨
  (c.2 = n.2 ∧ (c.1 = n.1 + 1 ∨ n.1 = c.1 + 1))

/-- Priority key of the search cursor (`current_dist` plus heuristic). -/
def Grid.curKey (g : Grid) : ℕ := g.current_dist + g.hg g.current

/-! ### Concrete grids used in the examples below -/

/-- Fallback grid for `Option.getD` in the concrete examples. -/
def defG : Grid :=
  { enable_astar := false
    cells := []
    unvisited := []
    start := (0, 0)
    current := (0, 0)
    current_dist := 0
    goal := (0, 0) }

/-- 2×1 grid, start `(0,0)`, goal `(1,0)`, pure Dijkstra mode. -/
def gA : Grid := (Grid.new 2 1 (0, 0) (1, 0) false).getD defG

/-- `gA` after one step (the completing step). -/
def gA1 : Grid := gA.dijkstra_iteration.getD defG

/-- The 5×5 grid of the documented scenario: no obstacles, start `(0,0)`,
goal `(4,4)`. -/
def g55 : Grid := (Grid.new 5 5 (0, 0) (4, 4) false).getD defG

/-- `g55` after 24 steps (past completion). -/
def g55c : Grid := (Grid.stepN g55 24).getD defG

/-- 7×7 A* grid with a horizontal obstacle wall at `y = 4` for
`x ∈ [0, 6)`: the slope of `draw_obstacle (0,4) (6,4)` is
`(4 - 4) / (0 - 6) = 0`, so the float computation of the source is exact
and samples `y = 4` at every `x`. -/
def g77 : Grid :=
  ((Grid.new 7 7 (3, 3) (3, 5) true).getD defG).draw_obstacle_with
    (0, 4) (6, 4) (fun _ => 4)

/-- 2×1 grid whose start cell is painted over by an obstacle:
`draw_obstacle (0,0) (1,0)` has slope `(0 - 0) / (0 - 1) = 0` (exact in
`f64`) and paints exactly the cell `(0,0)`. -/
def gOb : Grid :=
  ((Grid.new 2 1 (0, 0) (1, 0) false).getD defG).draw_obstacle_with
    (0, 0) (1, 0) (fun _ => 0)

/-- `gOb` after one (silently succeeding) step. -/
def gOb1 : Grid := gOb.dijkstra_iteration.getD defG

/-- 1×2 grid whose goal cell is painted over (slope `0`, exact), so the
search exhausts after one step. -/
def gEx : Grid :=
  ((Grid.new 1 2 (0, 0) (0, 1) false).getD defG).draw_obstacle_with
    (0, 1) (1, 1) (fun _ => 1)

/-- `gEx` after one step: heap empty, current cell settled (exhausted). -/
def gEx1 : Grid := gEx.dijkstra_iteration.getD defG

/-- 4×3 A* grid used to witness the construction postcondition. -/
def gNew : Grid := (Grid.new 4 3 (1, 2) (3, 0) true).getD defG

/-! ### List helper -/

theorem list_set_self {α : Type _} {l : List α} {i : ℕ} {a : α}
    (h : l[i]? = some a) : l.set i a = l := by
  obtain ⟨hlt, -⟩ := List.getElem?_eq_some_iff.mp h
  apply List.ext_getElem?
  intro j
  by_cases hij : i = j
  · subst hij
    rw [List.getElem?_set_self hlt]
    exact h.symm
  · rw [List.getElem?_set_ne hij]

/-! ### `set_cell` and `get_cell` lemmas -/

namespace Grid

theorem set_cell_enable_astar (g : Grid) (c : ℕ × ℕ) (s : CellState) :
    (g.set_cell c s).enable_astar = g.enable_astar := by
  unfold set_cell; cases g.cells[c.1]? <;> rfl

theorem set_cell_unvisited (g : Grid) (c : ℕ × ℕ) (s : CellState) :
    (g.set_cell c s).unvisited = g.unvisited := by
  unfold set_cell; cases g.cells[c.1]? <;> rfl

theorem set_cell_start (g : Grid) (c : ℕ × ℕ) (s : CellState) :
    (g.set_cell c s).start = g.start := by
  unfold set_cell; cases g.cells[c.1]? <;> rfl

theorem set_cell_current (g : Grid) (c : ℕ × ℕ) (s : CellState) :
    (g.set_cell c s).current = g.current := by
  unfold set_cell; cases g.cells[c.1]? <;> rfl

theorem set_cell_current_dist (g : Grid) (c : ℕ × ℕ) (s : CellState) :
    (g.set_cell c s).current_dist = g.current_dist := by
  unfold set_cell; cases g.cells[c.1]? <;> rfl

theorem set_cell_goal (g : Grid) (c : ℕ × ℕ) (s : CellState) :
    (g.set_cell c s).goal = g.goal := by
  unfold set_cell; cases g.cells[c.1]? <;> rfl

theorem set_cell_width (g : Grid) (c : ℕ × ℕ) (s : CellState) :
    (g.set_cell c s).width = g.width := by
  unfold set_cell
  cases h : g.cells[c.1]? with
  | none => rfl
  | some col => simp [width]

theorem set_cell_height (g : Grid) (c : ℕ × ℕ) (s : CellState) :
    (g.set_cell c s).height = g.height := by
  unfold set_cell
  rcases hc : g.cells with - | ⟨c0, t⟩
  · simp [hc]
  · rcases hx : c.1 with - | i
    · simp [hc, height, List.set_cons_zero]
    · cases h : (c0 :: t)[i + 1]? with
      | none => simp [hc, hx, h]
      | some col => simp [hc, hx, h, height, List.set_cons_succ]

theorem hg_set_cell (g : Grid) (c : ℕ × ℕ) (s : CellState) (x : ℕ × ℕ) :
    (g.set_cell c s).hg x = g.hg x := by
  unfold hg
  rw [set_cell_enable_astar, set_cell_goal]

theorem get_cell_some_of_inb {g : Grid} {c : ℕ × ℕ} (hs : g.Shape)
    (h : g.inb c) : ∃ s, g.get_cell c = some s := by
  obtain ⟨h1, h2⟩ := h
  have hcol : g.cells[c.1]? = some (g.cells.get ⟨c.1, h1⟩) :=
    List.getElem?_eq_getElem h1
  have hmem : g.cells.get ⟨c.1, h1⟩ ∈ g.cells := List.getElem_mem h1
  have hlen : (g.cells.get ⟨c.1, h1⟩).length = g.height := hs.2.2 _ hmem
  have h2' : c.2 < (g.cells.get ⟨c.1, h1⟩).length := hlen ▸ h2
  exact ⟨_, by rw [get_cell, hcol, Option.some_bind,
    List.getElem?_eq_getElem h2']⟩

theorem inb_of_get_cell_some {g : Grid} {c : ℕ × ℕ} {s : CellState}
    (hs : g.Shape) (h : g.get_cell c = some s) : g.inb c := by
  unfold get_cell at h
  cases hcol : g.cells[c.1]? with
  | none => rw [hcol] at h; simp at h
  | some col =>
    rw [hcol] at h
    simp only [Option.some_bind] at h
    obtain ⟨h2, -⟩ := List.getElem?_eq_some_iff.mp h
    obtain ⟨h1, -⟩ := List.getElem?_eq_some_iff.mp hcol
    have hmem : col ∈ g.cells := by
      obtain ⟨hh, he⟩ := List.getElem?_eq_some_iff.mp hcol
      exact he ▸ List.getElem_mem hh
    exact ⟨h1, (hs.2.2 _ hmem) ▸ h2⟩

theorem get_cell_set_cell_same {g : Grid} {c : ℕ × ℕ} (s : CellState)
    (hs : g.Shape) (h : g.inb c) :
    (g.set_cell c s).get_cell c = some s := by
  obtain ⟨h1, h2⟩ := h
  have hcol : g.cells[c.1]? = some (g.cells.get ⟨c.1, h1⟩) :=
    List.getElem?_eq_getElem h1
  have hmem : g.cells.get ⟨c.1, h1⟩ ∈ g.cells := List.getElem_mem h1
  have hlen : (g.cells.get ⟨c.1, h1⟩).length = g.height := hs.2.2 _ hmem
  have h2' : c.2 < (g.cells.get ⟨c.1, h1⟩).length := hlen ▸ h2
  unfold set_cell
  rw [hcol]
  simp only [get_cell]
  rw [List.getElem?_set_self (by simpa using h1)]
  simp only [Option.some_bind]
  rw [List.getElem?_set_self (by simpa using h2')]

theorem get_cell_set_cell_ne {g : Grid} {c c' : ℕ × ℕ} (s : CellState)
    (h : c' ≠ c) : (g.set_cell c s).get_cell c' = g.get_cell c' := by
  unfold set_cell
  cases hcol : g.cells[c.1]? with
  | none => rfl
  | some col =>
    simp only [get_cell]
    by_cases h1 : c.1 = c'.1
    · have h2 : c'.2 ≠ c.2 := by
        intro h2
        exact h (Prod.ext h1.symm h2)
      obtain ⟨hlt, -⟩ := List.getElem?_eq_some_iff.mp hcol
      rw [← h1, List.getElem?_set_self hlt, hcol]
      simp only [Option.some_bind]
      rw [List.getElem?_set_ne (fun hh => h2 hh.symm)]
    · rw [List.getElem?_set_ne h1]

theorem set_cell_self {g : Grid} {c : ℕ × ℕ} {s : CellState}
    (h : g.get_cell c = some s) : g.set_cell c s = g := by
  unfold get_cell at h
  cases hcol : g.cells[c.1]? with
  | none => rw [hcol] at h; simp at h
  | some col =>
    rw [hcol] at h
    simp only [Option.some_bind] at h
    unfold set_cell
    rw [hcol]
    show { g with cells := g.cells.set c.1 (col.set c.2 s) } = g
    rw [list_set_self h, list_set_self hcol]

theorem set_cell_shape {g : Grid} {c : ℕ × ℕ} {s : CellState}
    (hs : g.Shape) : (g.set_cell c s).Shape := by
  refine ⟨?_, ?_, ?_⟩
  · rw [set_cell_width]; exact hs.1
  · rw [set_cell_height]; exact hs.2.1
  · intro col hcol
    rw [set_cell_height]
    unfold set_cell at hcol
    cases h : g.cells[c.1]? with
    | none => rw [h] at hcol; exact hs.2.2 _ hcol
    | some col0 =>
      rw [h] at hcol
      simp only at hcol
      rcases List.mem_or_eq_of_mem_set hcol with hm | he
      · exact hs.2.2 _ hm
      · subst he
        rw [List.length_set]
        refine hs.2.2 _ ?_
        obtain ⟨hh, hex⟩ := List.getElem?_eq_some_iff.mp h
        exact hex ▸ List.getElem_mem hh

theorem set_cell_inb (g : Grid) (c : ℕ × ℕ) (s : CellState) (x : ℕ × ℕ) :
    (g.set_cell c s).inb x ↔ g.inb x := by
  unfold inb
  rw [set_cell_width, set_cell_height]

end Grid

/-! ### Neighbour lemmas -/

theorem mem_ite_singleton {α : Type _} (p : Prop) [Decidable p] (x n : α) :
    n ∈ (if p then [x] else []) ↔ p ∧ n = x := by
  by_cases h : p
  · simp [h]
  · simp [h]

namespace Grid

theorem mem_get_neighbors_iff (g : Grid) (c n : ℕ × ℕ) :
    n ∈ g.get_neighbors c ↔
      (0 < c.2 ∧ n = (c.1, c.2 - 1)) ∨
      (c.2 < g.height - 1 ∧ n = (c.1, c.2 + 1)) ∨
      (0 < c.1 ∧ n = (c.1 - 1, c.2)) ∨
      (c.1 < g.width - 1 ∧ n = (c.1 + 1, c.2)) := by
  unfold get_neighbors
  simp only [List.mem_append, mem_ite_singleton]
  tauto

theorem get_neighbors_congr {g g' : Grid} (h1 : g'.width = g.width)
    (h2 : g'.height = g.height) (c : ℕ × ℕ) :
    g'.get_neighbors c = g.get_neighbors c := by
  unfold get_neighbors
  rw [h1, h2]

theorem inb_of_mem_neighbors {g : Grid} {c n : ℕ × ℕ}
    (hc : g.inb c) (h : n ∈ g.get_neighbors c) : g.inb n := by
  obtain ⟨hc1, hc2⟩ := hc
  rcases (g.mem_get_neighbors_iff c n).mp h with ⟨h0, he⟩ | ⟨h0, he⟩ | ⟨h0, he⟩ | ⟨h0, he⟩ <;>
    subst he <;> exact ⟨by omega, by omega⟩

theorem adj_of_mem_neighbors {g : Grid} {c n : ℕ × ℕ}
    (h : n ∈ g.get_neighbors c) : adj c n := by
  rcases (g.mem_get_neighbors_iff c n).mp h with ⟨h0, he⟩ | ⟨h0, he⟩ | ⟨h0, he⟩ | ⟨h0, he⟩ <;>
    subst he <;> unfold adj <;> simp <;> omega

theorem mem_neighbors_of_adj {g : Grid} {c n : ℕ × ℕ}
    (hn : g.inb n) (h : adj c n) : n ∈ g.get_neighbors c := by
  obtain ⟨hn1, hn2⟩ := hn
  obtain ⟨nx, ny⟩ := n
  obtain ⟨cx, cy⟩ := c
  rw [mem_get_neighbors_iff]
  simp only [Prod.mk.injEq]
  rcases h with ⟨h1, h2 | h2⟩ | ⟨h1, h2 | h2⟩
  · exact Or.inl ⟨by omega, by omega, by omega⟩
  · exact Or.inr (Or.inl ⟨by simp at hn2 ⊢; omega, by omega, by omega⟩)
  · exact Or.inr (Or.inr (Or.inl ⟨by omega, by omega, by omega⟩))
  · exact Or.inr (Or.inr (Or.inr ⟨by simp at hn1 ⊢; omega, by omega, by omega⟩))

end Grid

theorem adj_ne {c n : ℕ × ℕ} (h : adj c n) : n ≠ c := by
  obtain ⟨nx, ny⟩ := n
  obtain ⟨cx, cy⟩ := c
  rcases h with ⟨h1, h2 | h2⟩ | ⟨h1, h2 | h2⟩ <;> simp [Prod.mk.injEq] <;> omega

theorem adj_symm {c n : ℕ × ℕ} (h : adj c n) : adj n c := by
  rcases h with ⟨h1, h2⟩ | ⟨h1, h2⟩
  · exact Or.inl ⟨h1.symm, h2.symm⟩
  · exact Or.inr ⟨h1.symm, h2.symm⟩

/-! ### Comparator and heap lemmas -/

theorem then_eq_gt {o1 o2 : Ordering} :
    o1.then o2 = Ordering.gt ↔ o1 = Ordering.gt ∨ (o1 = Ordering.eq ∧ o2 = Ordering.gt) := by
  cases o1 <;> simp [Ordering.then]

theorem then_eq_lt {o1 o2 : Ordering} :
    o1.then o2 = Ordering.lt ↔ o1 = Ordering.lt ∨ (o1 = Ordering.eq ∧ o2 = Ordering.lt) := by
  cases o1 <;> simp [Ordering.then]

theorem then_eq_eq {o1 o2 : Ordering} :
    o1.then o2 = Ordering.eq ↔ o1 = Ordering.eq ∧ o2 = Ordering.eq := by
  cases o1 <;> simp [Ordering.then]

theorem cellCmp_eq_gt {a b : ℕ × ℕ} :
    cellCmp a b = Ordering.gt ↔ b.1 < a.1 ∨ (a.1 = b.1 ∧ b.2 < a.2) := by
  unfold cellCmp
  rw [then_eq_gt, Nat.compare_eq_gt, Nat.compare_eq_gt, Nat.compare_eq_eq]

theorem cellCmp_eq_lt {a b : ℕ × ℕ} :
    cellCmp a b = Ordering.lt ↔ a.1 < b.1 ∨ (a.1 = b.1 ∧ a.2 < b.2) := by
  unfold cellCmp
  rw [then_eq_lt, Nat.compare_eq_lt, Nat.compare_eq_lt, Nat.compare_eq_eq]

theorem usCmp_eq_gt {a b : UnvisitedState} :
    usCmp a b = Ordering.gt ↔
      a.dist < b.dist ∨ (a.dist = b.dist ∧
        (a.actual_dist < b.actual_dist ∨ (a.actual_dist = b.actual_dist ∧
          (b.cell.1 < a.cell.1 ∨ (a.cell.1 = b.cell.1 ∧ b.cell.2 < a.cell.2))))) := by
  unfold usCmp
  rw [then_eq_gt, then_eq_gt, then_eq_eq, Nat.compare_eq_gt, Nat.compare_eq_gt,
    Nat.compare_eq_eq, Nat.compare_eq_eq, cellCmp_eq_gt]
  omega

theorem usCmp_eq_lt {a b : UnvisitedState} :
    usCmp a b = Ordering.lt ↔
      b.dist < a.dist ∨ (a.dist = b.dist ∧
        (b.actual_dist < a.actual_dist ∨ (a.actual_dist = b.actual_dist ∧
          (a.cell.1 < b.cell.1 ∨ (a.cell.1 = b.cell.1 ∧ a.cell.2 < b.cell.2))))) := by
  unfold usCmp
  rw [then_eq_lt, then_eq_lt, then_eq_eq, Nat.compare_eq_lt, Nat.compare_eq_lt,
    Nat.compare_eq_eq, Nat.compare_eq_eq, cellCmp_eq_lt]
  omega

theorem usCmp_self (a : UnvisitedState) : usCmp a a = Ordering.eq := by
  unfold usCmp cellCmp
  rw [then_eq_eq, then_eq_eq, then_eq_eq]
  simp [Nat.compare_eq_eq]

/-- The popped entry is a member of the heap. -/
theorem popMax_mem : ∀ {l : List UnvisitedState} {e : UnvisitedState}
    {r : List UnvisitedState}, popMax l = some (e, r) → e ∈ l := by
  intro l
  induction l with
  | nil => intro e r h; simp [popMax] at h
  | cons x xs ih =>
    intro e r h
    unfold popMax at h
    cases hx : popMax xs with
    | none => rw [hx] at h; simp at h; simp [h.1]
    | some mr =>
      rw [hx] at h
      by_cases hlt : usCmp x mr.1 = Ordering.lt
      · simp [hlt] at h
        right
        have := ih (e := mr.1) (r := mr.2) (by rw [hx])
        rwa [← h.1]
      · simp [hlt] at h
        simp [h.1]

/-- The heap is the popped entry plus the rest, as a multiset. -/
theorem popMax_perm : ∀ {l : List UnvisitedState} {e : UnvisitedState}
    {r : List UnvisitedState}, popMax l = some (e, r) → l.Perm (e :: r) := by
  intro l
  induction l with
  | nil => intro e r h; simp [popMax] at h
  | cons x xs ih =>
    intro e r h
    unfold popMax at h
    cases hx : popMax xs with
    | none => rw [hx] at h; simp at h; rw [h.1, h.2]
    | some mr =>
      rw [hx] at h
      by_cases hlt : usCmp x mr.1 = Ordering.lt
      · simp [hlt] at h
        have hperm : xs.Perm (mr.1 :: mr.2) := ih (by rw [hx])
        rw [← h.1, ← h.2]
        exact ((hperm.cons x).trans (List.Perm.swap mr.1 x mr.2))
      · simp [hlt] at h
        rw [h.1, h.2]

theorem popMax_eq_none_iff {l : List UnvisitedState} :
    popMax l = none ↔ l = [] := by
  cases l with
  | nil => simp [popMax]
  | cons x xs =>
    simp only [popMax]
    cases popMax xs with
    | none => simp
    | some mr => by_cases h : usCmp x mr.1 = Ordering.lt <;> simp [h]

/-- The popped entry is maximal w.r.t. `usCmp`. -/
theorem popMax_max : ∀ {l : List UnvisitedState} {e : UnvisitedState}
    {r : List UnvisitedState}, popMax l = some (e, r) →
    ∀ x ∈ l, usCmp x e ≠ Ordering.gt := by
  intro l
  induction l with
  | nil => intro e r h; simp [popMax] at h
  | cons x xs ih =>
    intro e r h y hy
    unfold popMax at h
    cases hx : popMax xs with
    | none =>
      rw [hx] at h
      simp at h
      have hxs : xs = [] := popMax_eq_none_iff.mp hx
      subst hxs
      simp at hy
      rw [hy, ← h.1]
      simp [usCmp_self]
    | some mr =>
      rw [hx] at h
      by_cases hlt : usCmp x mr.1 = Ordering.lt
      · simp [hlt] at h
        rcases List.mem_cons.mp hy with hyx | hyxs
        · subst hyx
          rw [← h.1]
          intro hgt
          rw [usCmp_eq_gt] at hgt
          rw [usCmp_eq_lt] at hlt
          omega
        · rw [← h.1]
          exact ih (by rw [hx]) y hyxs
      · simp [hlt] at h
        rcases List.mem_cons.mp hy with hyx | hyxs
        · subst hyx
          rw [← h.1]
          simp [usCmp_self]
        · rw [← h.1]
          intro hgt
          have hym := ih (e := mr.1) (r := mr.2) (by rw [hx]) y hyxs
          rw [usCmp_eq_gt] at hgt
          have hxm : ¬ (usCmp x mr.1 = Ordering.lt) := hlt
          rw [usCmp_eq_lt] at hxm
          apply hym
          rw [usCmp_eq_gt]
          omega

/-! ### `minByDist` and `collectVisited` lemmas -/

namespace Grid

theorem minByDist_eq_none_iff {l : List ((ℕ × ℕ) × ℕ)} :
    minByDist l = none ↔ l = [] := by
  cases l with
  | nil => simp [minByDist]
  | cons x xs =>
    simp only [minByDist]
    cases minByDist xs with
    | none => simp
    | some m => by_cases h : m.2 < x.2 <;> simp [h]

theorem minByDist_mem : ∀ {l : List ((ℕ × ℕ) × ℕ)} {r : (ℕ × ℕ) × ℕ},
    minByDist l = some r → r ∈ l := by
  intro l
  induction l with
  | nil => intro r h; simp [minByDist] at h
  | cons x xs ih =>
    intro r h
    unfold minByDist at h
    cases hx : minByDist xs with
    | none => rw [hx] at h; simp at h; simp [h]
    | some m =>
      rw [hx] at h
      by_cases hlt : m.2 < x.2
      · simp [hlt] at h
        right
        rw [← h]
        exact ih hx
      · simp [hlt] at h
        simp [h]

theorem minByDist_le : ∀ {l : List ((ℕ × ℕ) × ℕ)} {r : (ℕ × ℕ) × ℕ},
    minByDist l = some r → ∀ x ∈ l, r.2 ≤ x.2 := by
  intro l
  induction l with
  | nil => intro r h; simp [minByDist] at h
  | cons x xs ih =>
    intro r h y hy
    unfold minByDist at h
    cases hx : minByDist xs with
    | none =>
      rw [hx] at h
      simp at h
      have hxs : xs = [] := minByDist_eq_none_iff.mp hx
      subst hxs
      simp at hy
      rw [hy, ← h]
    | some m =>
      rw [hx] at h
      by_cases hlt : m.2 < x.2
      · simp [hlt] at h
        rcases List.mem_cons.mp hy with hyx | hyxs
        · subst hyx; rw [← h]; omega
        · rw [← h]; exact ih hx y hyxs
      · simp [hlt] at h
        rcases List.mem_cons.mp hy with hyx | hyxs
        · subst hyx; rw [← h]
        · rw [← h]
          have := ih hx y hyxs
          omega

theorem collectVisited_spec {g : Grid} : ∀ {ns : List (ℕ × ℕ)},
    (∀ c ∈ ns, ∃ s, g.get_cell c = some s) →
    ∃ r, Grid.collectVisited g ns = some r ∧
      (∀ x ∈ r, x.1 ∈ ns ∧ g.get_cell x.1 = some (CellState.Visited x.2)) ∧
      (∀ c d, c ∈ ns → g.get_cell c = some (CellState.Visited d) → (c, d) ∈ r) := by
  intro ns
  induction ns with
  | nil => intro _; exact ⟨[], rfl, by simp, by simp⟩
  | cons c cs ih =>
    intro hall
    obtain ⟨s, hs⟩ := hall c (by simp)
    obtain ⟨r, hr, hmem, hcov⟩ := ih (fun c' hc' => hall c' (by simp [hc']))
    cases s with
    | Visited d =>
      refine ⟨(c, d) :: r, ?_, ?_, ?_⟩
      · unfold Grid.collectVisited
        rw [hs, hr]
        rfl
      · intro x hx
        rcases List.mem_cons.mp hx with hxc | hxr
        · subst hxc; exact ⟨by simp, hs⟩
        · obtain ⟨h1, h2⟩ := hmem x hxr
          exact ⟨by simp [h1], h2⟩
      · intro c' d' hc' hvis
        rcases List.mem_cons.mp hc' with hcc | hcs
        · subst hcc
          rw [hs] at hvis
          simp at hvis
          subst hvis
          simp
        · simp [hcov c' d' hcs hvis]
    | Unknown =>
      refine ⟨r, ?_, ?_, ?_⟩
      · unfold Grid.collectVisited; rw [hs]; exact hr
      · intro x hx
        obtain ⟨h1, h2⟩ := hmem x hx
        exact ⟨by simp [h1], h2⟩
      · intro c' d' hc' hvis
        rcases List.mem_cons.mp hc' with hcc | hcs
        · subst hcc; rw [hs] at hvis; simp at hvis
        · exact hcov c' d' hcs hvis
    | Unvisited =>
      refine ⟨r, ?_, ?_, ?_⟩
      · unfold Grid.collectVisited; rw [hs]; exact hr
      · intro x hx
        obtain ⟨h1, h2⟩ := hmem x hx
        exact ⟨by simp [h1], h2⟩
      · intro c' d' hc' hvis
        rcases List.mem_cons.mp hc' with hcc | hcs
        · subst hcc; rw [hs] at hvis; simp at hvis
        · exact hcov c' d' hcs hvis
    | Obstacle =>
      refine ⟨r, ?_, ?_, ?_⟩
      · unfold Grid.collectVisited; rw [hs]; exact hr
      · intro x hx
        obtain ⟨h1, h2⟩ := hmem x hx
        exact ⟨by simp [h1], h2⟩
      · intro c' d' hc' hvis
        rcases List.mem_cons.mp hc' with hcc | hcs
        · subst hcc; rw [hs] at hvis; simp at hvis
        · exact hcov c' d' hcs hvis
    | OnPath =>
      refine ⟨r, ?_, ?_, ?_⟩
      · unfold Grid.collectVisited; rw [hs]; exact hr
      · intro x hx
        obtain ⟨h1, h2⟩ := hmem x hx
        exact ⟨by simp [h1], h2⟩
      · intro c' d' hc' hvis
        rcases List.mem_cons.mp hc' with hcc | hcs
        · subst hcc; rw [hs] at hvis; simp at hvis
        · exact hcov c' d' hcs hvis

end Grid

/-! ### Integer square root and heuristic arithmetic -/

namespace Grid

theorem isqrtAux_eq (n : ℕ) : ∀ m : ℕ, isqrtAux n m = min (Nat.sqrt n) m := by
  intro m
  induction m with
  | zero => simp [isqrtAux]
  | succ k ih =>
    unfold isqrtAux
    by_cases h : (k + 1) * (k + 1) ≤ n
    · have : k + 1 ≤ Nat.sqrt n := Nat.le_sqrt.mpr h
      simp [h]
      omega
    · have : Nat.sqrt n < k + 1 := by
        rw [Nat.sqrt_lt]
        omega
      simp [h, ih]
      omega

theorem isqrt_eq_sqrt (n : ℕ) : isqrt n = Nat.sqrt n := by
  unfold isqrt
  rw [isqrtAux_eq]
  have := Nat.sqrt_le_self n
  omega

/-- One step away in one coordinate moves the floored Euclidean norm by at
most one. -/
theorem sqrt_sq_add_sq_lipschitz {a a' b : ℕ} (h : a ≤ a' + 1) :
    Nat.sqrt (a ^ 2 + b ^ 2) ≤ Nat.sqrt (a' ^ 2 + b ^ 2) + 1 := by
  rcases le_or_lt a a' with hle | hlt
  · have : a ^ 2 + b ^ 2 ≤ a' ^ 2 + b ^ 2 := by nlinarith
    exact le_trans (Nat.sqrt_le_sqrt this) (Nat.le_succ _)
  · have ha : a = a' + 1 := by omega
    subst ha
    set s := Nat.sqrt (a' ^ 2 + b ^ 2) with hs
    have h1 : a' ^ 2 + b ^ 2 < (s + 1) ^ 2 := Nat.lt_succ_sqrt' _
    have h2 : a' ≤ s := by
      rw [hs]
      refine le_trans ?_ (Nat.sqrt_le_sqrt (Nat.le_add_right _ _))
      rw [Nat.sqrt_eq']
    have h3 : (a' + 1) ^ 2 + b ^ 2 < (s + 2) ^ 2 := by nlinarith
    have := Nat.sqrt_lt'.mpr h3
    omega

theorem euclid_lipschitz {t c n : ℕ × ℕ} (h : adj c n) :
    euclid t c ≤ euclid t n + 1 := by
  unfold euclid
  rw [isqrt_eq_sqrt, isqrt_eq_sqrt]
  rcases h with ⟨h1, h2⟩ | ⟨h1, h2⟩
  · have hb : ((c.2 : ℤ) - (t.2 : ℤ)).natAbs ≤ ((n.2 : ℤ) - (t.2 : ℤ)).natAbs + 1 := by
      omega
    rw [h1]
    calc Nat.sqrt (((n.1 : ℤ) - (t.1 : ℤ)).natAbs ^ 2 + ((c.2 : ℤ) - (t.2 : ℤ)).natAbs ^ 2)
        = Nat.sqrt (((c.2 : ℤ) - (t.2 : ℤ)).natAbs ^ 2 + ((n.1 : ℤ) - (t.1 : ℤ)).natAbs ^ 2) := by
          rw [Nat.add_comm]
      _ ≤ Nat.sqrt (((n.2 : ℤ) - (t.2 : ℤ)).natAbs ^ 2 + ((n.1 : ℤ) - (t.1 : ℤ)).natAbs ^ 2) + 1 :=
          sqrt_sq_add_sq_lipschitz hb
      _ = Nat.sqrt (((n.1 : ℤ) - (t.1 : ℤ)).natAbs ^ 2 + ((n.2 : ℤ) - (t.2 : ℤ)).natAbs ^ 2) + 1 := by
          rw [Nat.add_comm (((n.2 : ℤ) - (t.2 : ℤ)).natAbs ^ 2) (((n.1 : ℤ) - (t.1 : ℤ)).natAbs ^ 2)]
  · have ha : ((c.1 : ℤ) - (t.1 : ℤ)).natAbs ≤ ((n.1 : ℤ) - (t.1 : ℤ)).natAbs + 1 := by
      omega
    rw [h1]
    exact sqrt_sq_add_sq_lipschitz ha

theorem euclid_self (t : ℕ × ℕ) : euclid t t = 0 := by
  unfold euclid
  rw [isqrt_eq_sqrt]
  simp

theorem hg_lipschitz {g : Grid} {c n : ℕ × ℕ} (h : adj c n) :
    g.hg c ≤ g.hg n + 1 := by
  unfold hg
  by_cases hm : g.enable_astar
  · simp only [hm, if_true]
    exact euclid_lipschitz h
  · simp [hm]

theorem hg_goal (g : Grid) : g.hg g.goal = 0 := by
  unfold hg
  by_cases hm : g.enable_astar <;> simp [hm, euclid_self]

theorem get_dist_eq (g : Grid) (c : ℕ × ℕ) (d : ℕ) :
    g.get_dist c d = d + g.hg c := by
  unfold get_dist hg
  by_cases hm : g.enable_astar <;> simp [hm]

end Grid

/-! ### Manhattan distance lemmas -/

theorem manhattan_self (p : ℕ × ℕ) : manhattan p p = 0 := by
  unfold manhattan
  omega

theorem manhattan_adj {s u v : ℕ × ℕ} (h : adj u v) :
    manhattan s v = manhattan s u + 1 ∨ manhattan s u = manhattan s v + 1 := by
  unfold manhattan
  rcases h with ⟨h1, h2⟩ | ⟨h1, h2⟩ <;> omega

theorem manhattan_eq_zero {s u : ℕ × ℕ} (h : manhattan s u = 0) : u = s := by
  unfold manhattan at h
  obtain ⟨ux, uy⟩ := u
  obtain ⟨sx, sy⟩ := s
  simp only [Prod.mk.injEq]
  constructor <;> omega

/-- A cell distinct from `s` has an adjacent cell one Manhattan step
closer to `s`, inside the bounding box (hence in bounds whenever both
endpoints are). -/
theorem toward_start {s u : ℕ × ℕ} (W H : ℕ) (hu : u.1 < W ∧ u.2 < H)
    (hs : s.1 < W ∧ s.2 < H) (hne : u ≠ s) :
    ∃ u', adj u u' ∧ (u'.1 < W ∧ u'.2 < H) ∧ manhattan s u' + 1 = manhattan s u := by
  by_cases hx : u.1 = s.1
  · have hy : u.2 ≠ s.2 := by
      intro hy
      exact hne (Prod.ext hx hy)
    by_cases hlt : u.2 < s.2
    · refine ⟨(u.1, u.2 + 1), Or.inl ⟨rfl, Or.inr rfl⟩, ⟨hu.1, by omega⟩, ?_⟩
      unfold manhattan
      omega
    · refine ⟨(u.1, u.2 - 1), Or.inl ⟨rfl, Or.inl (by simp; omega)⟩, ⟨hu.1, by omega⟩, ?_⟩
      unfold manhattan
      omega
  · by_cases hlt : u.1 < s.1
    · refine ⟨(u.1 + 1, u.2), Or.inr ⟨rfl, Or.inr rfl⟩, ⟨by omega, hu.2⟩, ?_⟩
      unfold manhattan
      omega
    · refine ⟨(u.1 - 1, u.2), Or.inr ⟨rfl, Or.inl (by simp; omega)⟩, ⟨by omega, hu.2⟩, ?_⟩
      unfold manhattan
      omega

/-! ### The state invariant -/

/-- Components of the invariant that hold in every reachable state,
whatever the phase of the search. -/
structure InvG (g : Grid) : Prop where
  shape : g.Shape
  cur_inb : g.inb g.current
  start_inb : g.inb g.start
  goal_inb : g.inb g.goal
  goal_not_visited : ∀ d, g.get_cell g.goal ≠ some (CellState.Visited d)
  start_not_onpath : g.get_cell g.start ≠ some CellState.OnPath
  start_goal : g.start = g.goal → g.current = g.goal
  cur_start_dist : g.current = g.start → g.current_dist = 0
  start_visited : g.current ≠ g.start → g.get_cell g.start = some (CellState.Visited 0)
  onpath_only_completed : g.current ≠ g.goal → ∀ c, g.get_cell c ≠ some CellState.OnPath
  vis_key : ∀ c d, g.get_cell c = some (CellState.Visited d) → d + g.hg c ≤ g.curKey
  vis_closed : ∀ c d, g.get_cell c = some (CellState.Visited d) →
    ∀ n ∈ g.get_neighbors c, g.get_cell n ≠ some CellState.Unknown
  vis_zero : ∀ c, g.get_cell c = some (CellState.Visited 0) → c = g.start

/-- Invariant components of a running (not yet terminated) state, except
for the heap descent witnesses, which are weakened during the neighbour
loop.  The second disjunct of `cur_state` is the state directly after
construction when an obstacle was painted over the start cell. -/
structure ActCore (g : Grid) : Prop where
  hcur : g.current ≠ g.goal
  cur_state : g.get_cell g.current = some CellState.Unvisited ∨
    (g.get_cell g.current = some CellState.Obstacle ∧
      g.current = g.start ∧ g.current_dist = 0)
  cur_zero : g.current_dist = 0 → g.current = g.start
  ent_inb : ∀ e ∈ g.unvisited, g.inb e.cell
  ent_state : ∀ e ∈ g.unvisited, g.get_cell e.cell = some CellState.Unvisited
  ent_ne_cur : ∀ e ∈ g.unvisited, e.cell ≠ g.current
  ent_key : ∀ e ∈ g.unvisited, e.dist = e.actual_dist + g.hg e.cell
  ent_lb : ∀ e ∈ g.unvisited,
    g.curKey < e.dist ∨ (e.dist = g.curKey ∧ g.current_dist ≤ e.actual_dist)
  ent_pos : ∀ e ∈ g.unvisited, 1 ≤ e.actual_dist
  ent_nodup : (g.unvisited.map UnvisitedState.cell).Nodup
  unv_cov : ∀ c, g.get_cell c = some CellState.Unvisited →
    c = g.current ∨ ∃ e ∈ g.unvisited, e.cell = c
  cur_desc : 1 ≤ g.current_dist →
    ∃ n ∈ g.get_neighbors g.current,
      g.get_cell n = some (CellState.Visited (g.current_dist - 1))
  vis_desc : ∀ c d, g.get_cell c = some (CellState.Visited d) → 1 ≤ d →
    ∃ n ∈ g.get_neighbors c, g.get_cell n = some (CellState.Visited (d - 1))

/-- Descent witness for every heap entry (step-boundary form). -/
def EntDesc (g : Grid) : Prop :=
  ∀ e ∈ g.unvisited, ∃ n ∈ g.get_neighbors e.cell,
    g.get_cell n = some (CellState.Visited (e.actual_dist - 1))

/-- Weakened descent witness used inside the neighbour loop: entries
pushed during the loop are witnessed by the current cell, which is only
settled after the loop. -/
def EntDescW (g : Grid) : Prop :=
  ∀ e ∈ g.unvisited,
    (∃ n ∈ g.get_neighbors e.cell,
      g.get_cell n = some (CellState.Visited (e.actual_dist - 1))) ∨
    (e.actual_dist = g.current_dist + 1 ∧ e.cell ∈ g.get_neighbors g.current)

/-- Running phase at a step boundary. -/
def InvAct (g : Grid) : Prop := ActCore g ∧ EntDesc g

/-- Exhausted phase: the heap ran empty with the current cell already
settled; the search reported "no possible path". -/
structure InvExh (g : Grid) : Prop where
  hcur : g.current ≠ g.goal
  cur_state : g.get_cell g.current = some (CellState.Visited g.current_dist)
  heap_empty : g.unvisited = []
  no_unvisited : ∀ c, g.get_cell c ≠ some CellState.Unvisited

/-- The full invariant of reachable states. -/
def GInv (g : Grid) : Prop :=
  InvG g ∧ (g.current = g.goal ∨ InvAct g ∨ InvExh g)

/-- Extra invariant of obstacle-free runs: every recorded distance is the
exact Manhattan distance from the start. -/
structure MPart (g : Grid) : Prop where
  no_obstacle : ∀ c, g.get_cell c ≠ some CellState.Obstacle
  ent_manhattan : ∀ e ∈ g.unvisited, e.actual_dist = manhattan g.start e.cell
  cur_manhattan : g.current_dist = manhattan g.start g.current
  start_known : g.get_cell g.start ≠ some CellState.Unknown

/-! ### Frame facts for the neighbour loop -/

/-- What one pass of the neighbour loop can do to the state. -/
structure PFrame (g g' : Grid) : Prop where
  astar_eq : g'.enable_astar = g.enable_astar
  start_eq : g'.start = g.start
  goal_eq : g'.goal = g.goal
  current_eq : g'.current = g.current
  current_dist_eq : g'.current_dist = g.current_dist
  width_eq : g'.width = g.width
  height_eq : g'.height = g.height
  keep : ∀ c s, s ≠ CellState.Unknown → g.get_cell c = some s → g'.get_cell c = some s
  back : ∀ c s, g'.get_cell c = some s →
    g.get_cell c = some s ∨ (s = CellState.Unvisited ∧ g.get_cell c = some CellState.Unknown)
  ent_keep : ∀ e ∈ g.unvisited, e ∈ g'.unvisited
  ent_back : ∀ e ∈ g'.unvisited, e ∈ g.unvisited ∨
    (e.actual_dist = g.current_dist + 1 ∧ e.dist = e.actual_dist + g.hg e.cell ∧
      e.cell ∈ g.get_neighbors g.current)

theorem hg_congr {g g' : Grid} (ha : g'.enable_astar = g.enable_astar)
    (hgo : g'.goal = g.goal) (c : ℕ × ℕ) : g'.hg c = g.hg c := by
  unfold Grid.hg
  rw [ha, hgo]

theorem PFrame.frefl (g : Grid) : PFrame g g :=
  ⟨rfl, rfl, rfl, rfl, rfl, rfl, rfl,
    fun _ _ _ h => h, fun _ _ h => Or.inl h,
    fun _ h => h, fun _ h => Or.inl h⟩

theorem PFrame.ftrans {g1 g2 g3 : Grid} (h12 : PFrame g1 g2)
    (h23 : PFrame g2 g3) : PFrame g1 g3 := by
  refine ⟨h23.astar_eq.trans h12.astar_eq, h23.start_eq.trans h12.start_eq,
    h23.goal_eq.trans h12.goal_eq, h23.current_eq.trans h12.current_eq,
    h23.current_dist_eq.trans h12.current_dist_eq,
    h23.width_eq.trans h12.width_eq, h23.height_eq.trans h12.height_eq,
    ?_, ?_, ?_, ?_⟩
  · intro c s hs h
    exact h23.keep c s hs (h12.keep c s hs h)
  · intro c s h
    rcases h23.back c s h with h2 | ⟨hs, h2⟩
    · exact h12.back c s h2
    · rcases h12.back c _ h2 with h1 | ⟨-, h1⟩
      · exact Or.inr ⟨hs, h1⟩
      · exact Or.inr ⟨hs, h1⟩
  · intro e he
    exact h23.ent_keep e (h12.ent_keep e he)
  · intro e he
    rcases h23.ent_back e he with h2 | ⟨ha, hk, hn⟩
    · exact h12.ent_back e h2
    · refine Or.inr ⟨by rw [ha, h12.current_dist_eq], ?_, ?_⟩
      · rw [hk, hg_congr h12.astar_eq h12.goal_eq]
      · rw [Grid.get_neighbors_congr h12.width_eq h12.height_eq] at hn
        rwa [h12.current_eq] at hn

/-! ### The lower-bound lemma for undiscovered cells (obstacle-free runs) -/

/-- In an obstacle-free running state, every still-unknown cell `u` sits
at least as deep in the priority order as the cursor: its would-be key
`manhattan start u + hg u` is above `curKey`, or equal to it with an
actual distance not below `current_dist`.  Proved by strong induction on
the Manhattan distance, walking one step towards the start. -/
theorem ulow {g : Grid} (hG : InvG g) (hA : ActCore g) (hM : MPart g) :
    ∀ k u, manhattan g.start u = k → g.inb u →
    g.get_cell u = some CellState.Unknown →
    g.curKey < k + g.hg u ∨ (k + g.hg u = g.curKey ∧ g.current_dist ≤ k) := by
  intro k
  induction k using Nat.strong_induction_on with
  | _ k ih =>
    intro u hk hub hu
    rcases Nat.eq_zero_or_pos k with hk0 | hkpos
    · subst hk0
      have : u = g.start := manhattan_eq_zero hk
      subst this
      exact absurd hu hM.start_known
    · have hne : u ≠ g.start := by
        intro he
        subst he
        rw [manhattan_self] at hk
        omega
      obtain ⟨u', hadj, hub', hmu'⟩ :=
        toward_start g.width g.height hub hG.start_inb hne
      rw [hk] at hmu'
      have hlip : g.hg u' ≤ g.hg u + 1 := Grid.hg_lipschitz (adj_symm hadj)
      obtain ⟨s', hs'⟩ := Grid.get_cell_some_of_inb hG.shape hub'
      cases s' with
      | Visited d =>
        exfalso
        exact hG.vis_closed u' d hs' u
          (Grid.mem_neighbors_of_adj hub (adj_symm hadj)) hu
      | OnPath =>
        exact absurd hs' (hG.onpath_only_completed hA.hcur u')
      | Obstacle =>
        exact absurd hs' (hM.no_obstacle u')
      | Unvisited =>
        rcases hA.unv_cov u' hs' with hcur | ⟨e, he, hec⟩
        · subst hcur
          have hcm : g.current_dist = k - 1 := by
            rw [hM.cur_manhattan]
            omega
          unfold Grid.curKey
          omega
        · have hek : e.dist = e.actual_dist + g.hg e.cell := hA.ent_key e he
          have hea : e.actual_dist = manhattan g.start e.cell :=
            hM.ent_manhattan e he
          rw [hec] at hea
          have hea' : e.actual_dist = k - 1 := by omega
          rcases hA.ent_lb e he with hlb | ⟨hlb, hlb2⟩
          · left
            rw [hek, hec] at hlb
            omega
          · rw [hek, hec] at hlb
            omega
      | Unknown =>
        have := ih (k - 1) (by omega) u' (by omega) hub' hs'
        omega

/-- In obstacle-free running states, a still-unknown neighbour of the
cursor lies exactly one Manhattan step further from the start. -/
theorem push_manhattan {g : Grid} (hG : InvG g) (hA : ActCore g)
    (hM : MPart g) {u : ℕ × ℕ} (hmem : u ∈ g.get_neighbors g.current)
    (hu : g.get_cell u = some CellState.Unknown) :
    manhattan g.start u = g.current_dist + 1 := by
  have hadj : adj g.current u := Grid.adj_of_mem_neighbors hmem
  have hub : g.inb u := Grid.inb_of_mem_neighbors hG.cur_inb hmem
  have hlip : g.hg u ≤ g.hg g.current + 1 := Grid.hg_lipschitz (adj_symm hadj)
  rcases manhattan_adj (s := g.start) hadj with h1 | h1
  · rw [hM.cur_manhattan]
    omega
  · exfalso
    have hku : manhattan g.start u = g.current_dist - 1 := by
      rw [hM.cur_manhattan]
      omega
    have hcd : 1 ≤ g.current_dist := by
      rw [hM.cur_manhattan]
      omega
    have := ulow hG hA hM (g.current_dist - 1) u hku hub hu
    unfold Grid.curKey at this
    omega

/-- The `assert!` in the `Visited` arm of the neighbour loop holds: a
settled neighbour of the cursor is at most one unit worse. -/
theorem visited_assert {g : Grid} (hG : InvG g) {n : ℕ × ℕ} {d : ℕ}
    (hmem : n ∈ g.get_neighbors g.current)
    (hn : g.get_cell n = some (CellState.Visited d)) :
    d ≤ g.current_dist + 1 := by
  have hadj : adj g.current n := Grid.adj_of_mem_neighbors hmem
  have hlip : g.hg g.current ≤ g.hg n + 1 := Grid.hg_lipschitz hadj
  have hkey := hG.vis_key n d hn
  unfold Grid.curKey at hkey
  omega

/-! ### Effect of one neighbour-loop arm -/

namespace Grid

/-- The state produced by the `Unknown` arm: the neighbour is marked
`Unvisited` and a heap entry is pushed for it. -/
def pushState (g : Grid) (n : ℕ × ℕ) : Grid :=
  { g.set_cell n CellState.Unvisited with
    unvisited :=
      (⟨g.current_dist + 1 + g.hg n, g.current_dist + 1, n⟩ : UnvisitedState) ::
        g.unvisited }

theorem processNeighbor_unknown {g : Grid} {n : ℕ × ℕ}
    (h : g.get_cell n = some CellState.Unknown) :
    g.processNeighbor n = some (g.pushState n) := by
  unfold processNeighbor pushState
  rw [h]
  have h1 : (g.set_cell n CellState.Unvisited).get_dist n (g.current_dist + 1) =
      g.current_dist + 1 + g.hg n := by
    rw [get_dist_eq, hg_set_cell]
  simp only [h1, set_cell_unvisited]

theorem pushState_unvisited (g : Grid) (n : ℕ × ℕ) :
    (g.pushState n).unvisited =
      (⟨g.current_dist + 1 + g.hg n, g.current_dist + 1, n⟩ : UnvisitedState) ::
        g.unvisited := rfl

theorem pushState_get_cell (g : Grid) (n : ℕ × ℕ) (c : ℕ × ℕ) :
    (g.pushState n).get_cell c = (g.set_cell n CellState.Unvisited).get_cell c := rfl

theorem pushState_current (g : Grid) (n : ℕ × ℕ) :
    (g.pushState n).current = g.current := by
  show (g.set_cell n CellState.Unvisited).current = g.current
  rw [set_cell_current]

theorem pushState_current_dist (g : Grid) (n : ℕ × ℕ) :
    (g.pushState n).current_dist = g.current_dist := by
  show (g.set_cell n CellState.Unvisited).current_dist = g.current_dist
  rw [set_cell_current_dist]

theorem pushState_start (g : Grid) (n : ℕ × ℕ) :
    (g.pushState n).start = g.start := by
  show (g.set_cell n CellState.Unvisited).start = g.start
  rw [set_cell_start]

theorem pushState_goal (g : Grid) (n : ℕ × ℕ) :
    (g.pushState n).goal = g.goal := by
  show (g.set_cell n CellState.Unvisited).goal = g.goal
  rw [set_cell_goal]

theorem pushState_astar (g : Grid) (n : ℕ × ℕ) :
    (g.pushState n).enable_astar = g.enable_astar := by
  show (g.set_cell n CellState.Unvisited).enable_astar = g.enable_astar
  rw [set_cell_enable_astar]

theorem pushState_width (g : Grid) (n : ℕ × ℕ) :
    (g.pushState n).width = g.width := by
  show (g.set_cell n CellState.Unvisited).width = g.width
  rw [set_cell_width]

theorem pushState_height (g : Grid) (n : ℕ × ℕ) :
    (g.pushState n).height = g.height := by
  show (g.set_cell n CellState.Unvisited).height = g.height
  rw [set_cell_height]

theorem pushState_hg (g : Grid) (n : ℕ × ℕ) (c : ℕ × ℕ) :
    (g.pushState n).hg c = g.hg c :=
  hg_congr (pushState_astar g n) (pushState_goal g n) c

theorem pushState_curKey (g : Grid) (n : ℕ × ℕ) :
    (g.pushState n).curKey = g.curKey := by
  unfold curKey
  rw [pushState_current_dist, pushState_current, pushState_hg]

theorem pushState_neighbors (g : Grid) (n : ℕ × ℕ) (c : ℕ × ℕ) :
    (g.pushState n).get_neighbors c = g.get_neighbors c :=
  get_neighbors_congr (pushState_width g n) (pushState_height g n) c

theorem pushState_inb (g : Grid) (n : ℕ × ℕ) (c : ℕ × ℕ) :
    (g.pushState n).inb c ↔ g.inb c := by
  unfold inb
  rw [pushState_width, pushState_height]

theorem pushState_shape {g : Grid} (n : ℕ × ℕ) (hs : g.Shape) :
    (g.pushState n).Shape := by
  have h1 : (g.pushState n).cells = (g.set_cell n CellState.Unvisited).cells := rfl
  unfold Shape
  rw [pushState_width, pushState_height, h1]
  have h2 := set_cell_shape (c := n) (s := CellState.Unvisited) hs
  unfold Shape at h2
  rw [set_cell_width, set_cell_height] at h2
  exact h2

theorem processNeighbor_unvisited {g : Grid} {n : ℕ × ℕ}
    (h : g.get_cell n = some CellState.Unvisited) :
    g.processNeighbor n = some g := by
  unfold processNeighbor
  rw [h]

theorem processNeighbor_visited {g : Grid} {n : ℕ × ℕ} {d : ℕ}
    (h : g.get_cell n = some (CellState.Visited d))
    (hle : d ≤ g.current_dist + 1) :
    g.processNeighbor n = some g := by
  unfold processNeighbor
  rw [h]
  simp [hle]

theorem processNeighbor_obstacle {g : Grid} {n : ℕ × ℕ}
    (h : g.get_cell n = some CellState.Obstacle) :
    g.processNeighbor n = some g := by
  unfold processNeighbor
  rw [h]

end Grid

/-! ### Preservation of the invariant by one push -/

theorem push_preserve {g : Grid} (hG : InvG g) (hA : ActCore g) (hW : EntDescW g)
    {n : ℕ × ℕ} (hmem : n ∈ g.get_neighbors g.current)
    (hu : g.get_cell n = some CellState.Unknown) :
    InvG (g.pushState n) ∧ ActCore (g.pushState n) ∧ EntDescW (g.pushState n) ∧
      PFrame g (g.pushState n) ∧ (MPart g → MPart (g.pushState n)) := by
  have hnin : g.inb n := Grid.inb_of_mem_neighbors hG.cur_inb hmem
  have hadj : adj g.current n := Grid.adj_of_mem_neighbors hmem
  have hnc : n ≠ g.current := by
    intro he
    rcases hA.cur_state with hc | ⟨hc, -, -⟩ <;> rw [← he, hu] at hc <;> simp at hc
  have hns : n ≠ g.start := by
    by_cases hcs : g.current = g.start
    · rw [← hcs]; exact hnc
    · intro he
      have hsv := hG.start_visited hcs
      rw [← he, hu] at hsv
      simp at hsv
  have hsame : (g.pushState n).get_cell n = some CellState.Unvisited := by
    rw [Grid.pushState_get_cell]
    exact Grid.get_cell_set_cell_same _ hG.shape hnin
  have hother : ∀ c, c ≠ n → (g.pushState n).get_cell c = g.get_cell c := by
    intro c hcn
    rw [Grid.pushState_get_cell]
    exact Grid.get_cell_set_cell_ne _ hcn
  have hlip : g.hg g.current ≤ g.hg n + 1 := Grid.hg_lipschitz hadj
  refine ⟨?_, ?_, ?_, ?_, ?_⟩
  · -- InvG
    refine ⟨Grid.pushState_shape n hG.shape, ?_, ?_, ?_, ?_, ?_, ?_, ?_, ?_, ?_, ?_, ?_, ?_⟩
    · rw [Grid.pushState_current, Grid.pushState_inb]; exact hG.cur_inb
    · rw [Grid.pushState_start, Grid.pushState_inb]; exact hG.start_inb
    · rw [Grid.pushState_goal, Grid.pushState_inb]; exact hG.goal_inb
    · intro d
      rw [Grid.pushState_goal]
      by_cases hgn : g.goal = n
      · rw [hgn, hsame]; simp
      · rw [hother _ hgn]; exact hG.goal_not_visited d
    · rw [Grid.pushState_start, hother _ (Ne.symm hns)]
      exact hG.start_not_onpath
    · rw [Grid.pushState_start, Grid.pushState_goal, Grid.pushState_current]
      exact hG.start_goal
    · rw [Grid.pushState_current, Grid.pushState_start, Grid.pushState_current_dist]
      exact hG.cur_start_dist
    · rw [Grid.pushState_current, Grid.pushState_start]
      intro h
      rw [hother _ (Ne.symm hns)]
      exact hG.start_visited h
    · rw [Grid.pushState_current, Grid.pushState_goal]
      intro h c
      by_cases hcn : c = n
      · rw [hcn, hsame]; simp
      · rw [hother _ hcn]; exact hG.onpath_only_completed h c
    · intro c d hc
      rw [Grid.pushState_curKey, Grid.pushState_hg]
      by_cases hcn : c = n
      · rw [hcn, hsame] at hc; simp at hc
      · rw [hother _ hcn] at hc; exact hG.vis_key c d hc
    · intro c d hc m hm
      have hcn : c ≠ n := by
        intro h; rw [h, hsame] at hc; simp at hc
      rw [hother _ hcn] at hc
      rw [Grid.pushState_neighbors] at hm
      by_cases hmn : m = n
      · rw [hmn, hsame]; simp
      · rw [hother _ hmn]; exact hG.vis_closed c d hc m hm
    · intro c hc
      rw [Grid.pushState_start]
      have hcn : c ≠ n := by
        intro h; rw [h, hsame] at hc; simp at hc
      rw [hother _ hcn] at hc
      exact hG.vis_zero c hc
  · -- ActCore
    refine ⟨?_, ?_, ?_, ?_, ?_, ?_, ?_, ?_, ?_, ?_, ?_, ?_, ?_⟩
    · rw [Grid.pushState_current, Grid.pushState_goal]; exact hA.hcur
    · rw [Grid.pushState_current, Grid.pushState_start, Grid.pushState_current_dist,
        hother _ (Ne.symm hnc)]
      exact hA.cur_state
    · rw [Grid.pushState_current_dist, Grid.pushState_current, Grid.pushState_start]
      exact hA.cur_zero
    · intro e he
      rw [Grid.pushState_unvisited] at he
      rw [Grid.pushState_inb]
      rcases List.mem_cons.mp he with heE | heo
      · rw [heE]; exact hnin
      · exact hA.ent_inb e heo
    · intro e he
      rw [Grid.pushState_unvisited] at he
      rcases List.mem_cons.mp he with heE | heo
      · rw [heE]; exact hsame
      · have hecn : e.cell ≠ n := by
          intro h
          have := hA.ent_state e heo
          rw [h, hu] at this
          simp at this
        rw [hother _ hecn]
        exact hA.ent_state e heo
    · intro e he
      rw [Grid.pushState_unvisited] at he
      rw [Grid.pushState_current]
      rcases List.mem_cons.mp he with heE | heo
      · rw [heE]; exact hnc
      · exact hA.ent_ne_cur e heo
    · intro e he
      rw [Grid.pushState_unvisited] at he
      rw [Grid.pushState_hg]
      rcases List.mem_cons.mp he with heE | heo
      · rw [heE]
      · exact hA.ent_key e heo
    · intro e he
      rw [Grid.pushState_unvisited] at he
      rw [Grid.pushState_curKey, Grid.pushState_current_dist]
      rcases List.mem_cons.mp he with heE | heo
      · rw [heE]
        show g.curKey < g.current_dist + 1 + g.hg n ∨
          (g.current_dist + 1 + g.hg n = g.curKey ∧ g.current_dist ≤ g.current_dist + 1)
        unfold Grid.curKey
        omega
      · exact hA.ent_lb e heo
    · intro e he
      rw [Grid.pushState_unvisited] at he
      rcases List.mem_cons.mp he with heE | heo
      · rw [heE]; exact Nat.le_add_left 1 _
      · exact hA.ent_pos e heo
    · rw [Grid.pushState_unvisited]
      rw [List.map_cons, List.nodup_cons]
      refine ⟨?_, hA.ent_nodup⟩
      intro hmem'
      obtain ⟨e, heo, hec⟩ := List.mem_map.mp hmem'
      have := hA.ent_state e heo
      rw [hec, hu] at this
      simp at this
    · intro c hc
      rw [Grid.pushState_current]
      by_cases hcn : c = n
      · right
        exact ⟨_, by rw [Grid.pushState_unvisited]; exact List.mem_cons_self _ _, hcn.symm⟩
      · rw [hother _ hcn] at hc
        rcases hA.unv_cov c hc with h | ⟨e, heo, hec⟩
        · exact Or.inl h
        · exact Or.inr ⟨e, by rw [Grid.pushState_unvisited]; exact List.mem_cons_of_mem _ heo, hec⟩
    · rw [Grid.pushState_current_dist, Grid.pushState_current]
      intro h
      obtain ⟨m, hm, hmv⟩ := hA.cur_desc h
      have hmn : m ≠ n := by
        intro he; rw [he, hu] at hmv; simp at hmv
      exact ⟨m, by rw [Grid.pushState_neighbors]; exact hm, by rw [hother _ hmn]; exact hmv⟩
    · intro c d hc hd
      have hcn : c ≠ n := by
        intro h; rw [h, hsame] at hc; simp at hc
      rw [hother _ hcn] at hc
      obtain ⟨m, hm, hmv⟩ := hA.vis_desc c d hc hd
      have hmn : m ≠ n := by
        intro he; rw [he, hu] at hmv; simp at hmv
      exact ⟨m, by rw [Grid.pushState_neighbors]; exact hm, by rw [hother _ hmn]; exact hmv⟩
  · -- EntDescW
    intro e he
    rw [Grid.pushState_unvisited] at he
    rcases List.mem_cons.mp he with heE | heo
    · right
      rw [heE, Grid.pushState_current_dist, Grid.pushState_neighbors, Grid.pushState_current]
      exact ⟨rfl, hmem⟩
    · rcases hW e heo with ⟨m, hm, hmv⟩ | ⟨h1, h2⟩
      · left
        have hmn : m ≠ n := by
          intro hh; rw [hh, hu] at hmv; simp at hmv
        exact ⟨m, by rw [Grid.pushState_neighbors]; exact hm, by rw [hother _ hmn]; exact hmv⟩
      · right
        rw [Grid.pushState_current_dist, Grid.pushState_neighbors, Grid.pushState_current]
        exact ⟨h1, h2⟩
  · -- PFrame
    refine ⟨Grid.pushState_astar g n, Grid.pushState_start g n, Grid.pushState_goal g n,
      Grid.pushState_current g n, Grid.pushState_current_dist g n,
      Grid.pushState_width g n, Grid.pushState_height g n, ?_, ?_, ?_, ?_⟩
    · intro c s hsne hgc
      have hcn : c ≠ n := by
        intro h; rw [h, hu] at hgc
        injection hgc with hh
        exact hsne hh.symm
      rw [hother _ hcn]; exact hgc
    · intro c s hc
      by_cases hcn : c = n
      · subst hcn
        rw [hsame] at hc
        injection hc with hc
        exact Or.inr ⟨hc.symm, hu⟩
      · rw [hother _ hcn] at hc; exact Or.inl hc
    · intro e heo
      rw [Grid.pushState_unvisited]
      exact List.mem_cons_of_mem _ heo
    · intro e he
      rw [Grid.pushState_unvisited] at he
      rcases List.mem_cons.mp he with heE | heo
      · right
        rw [heE]
        exact ⟨rfl, rfl, hmem⟩
      · exact Or.inl heo
  · -- MPart
    intro hM
    refine ⟨?_, ?_, ?_, ?_⟩
    · intro c
      by_cases hcn : c = n
      · rw [hcn, hsame]; simp
      · rw [hother _ hcn]; exact hM.no_obstacle c
    · intro e he
      rw [Grid.pushState_unvisited] at he
      rw [Grid.pushState_start]
      rcases List.mem_cons.mp he with heE | heo
      · rw [heE]
        exact (push_manhattan hG hA hM hmem hu).symm
      · exact hM.ent_manhattan e heo
    · rw [Grid.pushState_current_dist, Grid.pushState_start, Grid.pushState_current]
      exact hM.cur_manhattan
    · rw [Grid.pushState_start, hother _ (Ne.symm hns)]
      exact hM.start_known

/-! ### The neighbour loop preserves the invariant and never panics -/

theorem processNeighbors_spec :
    ∀ (ns : List (ℕ × ℕ)) (g : Grid), InvG g → ActCore g → EntDescW g →
    (∀ n ∈ ns, n ∈ g.get_neighbors g.current) →
    ∃ g', g.processNeighbors ns = some g' ∧ InvG g' ∧ ActCore g' ∧ EntDescW g' ∧
      PFrame g g' ∧ (MPart g → MPart g') ∧
      (∀ n ∈ ns, g'.get_cell n ≠ some CellState.Unknown) := by
  intro ns
  induction ns with
  | nil =>
    intro g hG hA hW _
    exact ⟨g, rfl, hG, hA, hW, PFrame.frefl g, fun h => h, by simp⟩
  | cons n ns ih =>
    intro g hG hA hW hns
    have hmem : n ∈ g.get_neighbors g.current := hns n (by simp)
    have hnin : g.inb n := Grid.inb_of_mem_neighbors hG.cur_inb hmem
    obtain ⟨s, hs⟩ := Grid.get_cell_some_of_inb hG.shape hnin
    cases s with
    | Unknown =>
      obtain ⟨hG1, hA1, hW1, hF1, hM1⟩ := push_preserve hG hA hW hmem hs
      have hns1 : ∀ m ∈ ns, m ∈ (g.pushState n).get_neighbors (g.pushState n).current := by
        intro m hm
        rw [Grid.pushState_neighbors, Grid.pushState_current]
        exact hns m (by simp [hm])
      obtain ⟨g', hrun, hG', hA', hW', hF', hM', hnonu⟩ :=
        ih (g.pushState n) hG1 hA1 hW1 hns1
      refine ⟨g', ?_, hG', hA', hW', hF1.ftrans hF', fun hM => hM' (hM1 hM), ?_⟩
      · unfold Grid.processNeighbors
        rw [Grid.processNeighbor_unknown hs]
        exact hrun
      · intro m hm
        rcases List.mem_cons.mp hm with hmn | hmns
        · subst hmn
          have hkeep := hF'.keep m CellState.Unvisited (by simp)
            (by rw [Grid.pushState_get_cell]
                exact Grid.get_cell_set_cell_same _ hG.shape hnin)
          rw [hkeep]
          simp
        · exact hnonu m hmns
    | Unvisited =>
      obtain ⟨g', hrun, hG', hA', hW', hF', hM', hnonu⟩ :=
        ih g hG hA hW (fun m hm => hns m (by simp [hm]))
      refine ⟨g', ?_, hG', hA', hW', hF', hM', ?_⟩
      · unfold Grid.processNeighbors
        rw [Grid.processNeighbor_unvisited hs]
        exact hrun
      · intro m hm
        rcases List.mem_cons.mp hm with hmn | hmns
        · subst hmn
          rw [hF'.keep m CellState.Unvisited (by simp) hs]
          simp
        · exact hnonu m hmns
    | Visited d =>
      have hle : d ≤ g.current_dist + 1 := visited_assert hG hmem hs
      obtain ⟨g', hrun, hG', hA', hW', hF', hM', hnonu⟩ :=
        ih g hG hA hW (fun m hm => hns m (by simp [hm]))
      refine ⟨g', ?_, hG', hA', hW', hF', hM', ?_⟩
      · unfold Grid.processNeighbors
        rw [Grid.processNeighbor_visited hs hle]
        exact hrun
      · intro m hm
        rcases List.mem_cons.mp hm with hmn | hmns
        · subst hmn
          rw [hF'.keep m (CellState.Visited d) (by simp) hs]
          simp
        · exact hnonu m hmns
    | Obstacle =>
      obtain ⟨g', hrun, hG', hA', hW', hF', hM', hnonu⟩ :=
        ih g hG hA hW (fun m hm => hns m (by simp [hm]))
      refine ⟨g', ?_, hG', hA', hW', hF', hM', ?_⟩
      · unfold Grid.processNeighbors
        rw [Grid.processNeighbor_obstacle hs]
        exact hrun
      · intro m hm
        rcases List.mem_cons.mp hm with hmn | hmns
        · subst hmn
          rw [hF'.keep m CellState.Obstacle (by simp) hs]
          simp
        · exact hnonu m hmns
    | OnPath =>
      exact absurd hs (hG.onpath_only_completed hA.hcur n)

/-! ### Path reconstruction -/

/-- Descent and zero facts for all settled cells of distance at most `d`
(the cells the reconstruction cursor can still reach). -/
def LowDesc (g : Grid) (d : ℕ) : Prop :=
  ∀ c d', g.get_cell c = some (CellState.Visited d') → d' ≤ d →
    ((1 ≤ d' → ∃ n ∈ g.get_neighbors c,
        g.get_cell n = some (CellState.Visited (d' - 1))) ∧
     (d' = 0 → c = g.start))

/-- What the reconstruction loop can do to the state: everything but the
cells is untouched, and cells only ever change to `OnPath`; the start cell
is never touched. -/
structure CPFrame (g g' : Grid) : Prop where
  astar_eq : g'.enable_astar = g.enable_astar
  start_eq : g'.start = g.start
  goal_eq : g'.goal = g.goal
  current_eq : g'.current = g.current
  current_dist_eq : g'.current_dist = g.current_dist
  width_eq : g'.width = g.width
  height_eq : g'.height = g.height
  unvisited_eq : g'.unvisited = g.unvisited
  mark_back : ∀ c s, g'.get_cell c = some s →
    g.get_cell c = some s ∨ s = CellState.OnPath
  mark_keep : ∀ c s, g.get_cell c = some s →
    g'.get_cell c = some s ∨ g'.get_cell c = some CellState.OnPath
  start_cell_eq : g'.get_cell g.start = g.get_cell g.start

theorem CPFrame.crefl (g : Grid) : CPFrame g g :=
  ⟨rfl, rfl, rfl, rfl, rfl, rfl, rfl, rfl,
    fun _ _ h => Or.inl h, fun _ _ h => Or.inl h, rfl⟩

theorem CPFrame.ctrans {g1 g2 g3 : Grid} (h12 : CPFrame g1 g2)
    (h23 : CPFrame g2 g3) : CPFrame g1 g3 := by
  refine ⟨h23.astar_eq.trans h12.astar_eq, h23.start_eq.trans h12.start_eq,
    h23.goal_eq.trans h12.goal_eq, h23.current_eq.trans h12.current_eq,
    h23.current_dist_eq.trans h12.current_dist_eq,
    h23.width_eq.trans h12.width_eq, h23.height_eq.trans h12.height_eq,
    h23.unvisited_eq.trans h12.unvisited_eq, ?_, ?_, ?_⟩
  · intro c s h
    rcases h23.mark_back c s h with h2 | h2
    · exact h12.mark_back c s h2
    · exact Or.inr h2
  · intro c s h
    rcases h12.mark_keep c s h with h2 | h2
    · exact h23.mark_keep c s h2
    · rcases h23.mark_keep c _ h2 with h3 | h3
      · exact Or.inr h3
      · exact Or.inr h3
  · have h1 : g2.get_cell g1.start = g1.get_cell g1.start := h12.start_cell_eq
    have h2 : g3.get_cell g2.start = g2.get_cell g2.start := h23.start_cell_eq
    rw [h12.start_eq] at h2
    rw [h2, h1]

/-- Frame of a single `OnPath` mark at a cell other than the start. -/
theorem mark_frame {g : Grid} {cursor : ℕ × ℕ} (hs : g.Shape)
    (hin : g.inb cursor) (hne : cursor ≠ g.start) :
    CPFrame g (g.set_cell cursor CellState.OnPath) := by
  refine ⟨Grid.set_cell_enable_astar g cursor _, Grid.set_cell_start g cursor _,
    Grid.set_cell_goal g cursor _, Grid.set_cell_current g cursor _,
    Grid.set_cell_current_dist g cursor _, Grid.set_cell_width g cursor _,
    Grid.set_cell_height g cursor _, Grid.set_cell_unvisited g cursor _, ?_, ?_, ?_⟩
  · intro c s h
    by_cases hc : c = cursor
    · subst hc
      rw [Grid.get_cell_set_cell_same _ hs hin] at h
      injection h with h
      exact Or.inr h.symm
    · rw [Grid.get_cell_set_cell_ne _ hc] at h
      exact Or.inl h
  · intro c s h
    by_cases hc : c = cursor
    · subst hc
      exact Or.inr (Grid.get_cell_set_cell_same _ hs hin)
    · rw [Grid.get_cell_set_cell_ne _ hc]
      exact Or.inl h
  · exact Grid.get_cell_set_cell_ne _ (fun h => hne h.symm)

/-- Unfolding equation of the loop: the cursor reached the start. -/
theorem color_path_go_start {g : Grid} {f : ℕ} {cursor : ℕ × ℕ}
    (h : cursor = g.start) :
    Grid.color_path_go (f + 1) g cursor = some g := by
  unfold Grid.color_path_go
  rw [if_pos h]

/-- Unfolding equation of the loop: mark the cursor and move on. -/
theorem color_path_go_step {g : Grid} {f : ℕ} {cursor : ℕ × ℕ}
    {cands : List ((ℕ × ℕ) × ℕ)} {nd : (ℕ × ℕ) × ℕ}
    (h1 : ¬ cursor = g.start)
    (h2 : (g.set_cell cursor CellState.OnPath).collectVisited
      ((g.set_cell cursor CellState.OnPath).get_neighbors cursor) = some cands)
    (h3 : Grid.minByDist cands = some nd) :
    Grid.color_path_go (f + 1) g cursor =
      Grid.color_path_go f (g.set_cell cursor CellState.OnPath) nd.1 := by
  conv_lhs => unfold Grid.color_path_go
  rw [if_neg h1]
  show (match (g.set_cell cursor CellState.OnPath).collectVisited
          ((g.set_cell cursor CellState.OnPath).get_neighbors cursor) with
        | none => none
        | some cands =>
          match Grid.minByDist cands with
          | none => none
          | some nd =>
            Grid.color_path_go f (g.set_cell cursor CellState.OnPath) nd.1) =
      Grid.color_path_go f (g.set_cell cursor CellState.OnPath) nd.1
  rw [h2]
  show (match Grid.minByDist cands with
        | none => none
        | some nd =>
          Grid.color_path_go f (g.set_cell cursor CellState.OnPath) nd.1) =
      Grid.color_path_go f (g.set_cell cursor CellState.OnPath) nd.1
  rw [h3]

/-- The reconstruction loop terminates successfully from a settled cursor
of distance `d` when given fuel at least `d + 2`. -/
theorem cp_go_ok : ∀ (d fuel : ℕ) (g : Grid) (cursor : ℕ × ℕ),
    d + 2 ≤ fuel → g.Shape → g.inb cursor →
    g.get_cell cursor = some (CellState.Visited d) →
    LowDesc g d →
    g.get_cell g.start = some (CellState.Visited 0) →
    ∃ g', Grid.color_path_go fuel g cursor = some g' ∧ g'.Shape ∧ CPFrame g g' := by
  intro d
  induction d using Nat.strong_induction_on with
  | _ d ih =>
    intro fuel g cursor hfuel hs hin hcur hld hst
    obtain ⟨f, rfl⟩ : ∃ f, fuel = f + 1 := ⟨fuel - 1, by omega⟩
    by_cases hstart : cursor = g.start
    · exact ⟨g, color_path_go_start hstart, hs, CPFrame.crefl g⟩
    · have hd1 : 1 ≤ d := by
        rcases Nat.eq_zero_or_pos d with h0 | h1
        · exact absurd ((hld cursor d hcur (le_refl d)).2 h0) hstart
        · exact h1
      have hfr1 : CPFrame g (g.set_cell cursor CellState.OnPath) :=
        mark_frame hs hin hstart
      set gm := g.set_cell cursor CellState.OnPath with hgm
      have hsm : gm.Shape := Grid.set_cell_shape hs
      have hmcell : ∀ c, c ≠ cursor → gm.get_cell c = g.get_cell c := by
        intro c hc
        exact Grid.get_cell_set_cell_ne _ hc
      have hnbrs : ∀ c, gm.get_neighbors c = g.get_neighbors c :=
        Grid.get_neighbors_congr hfr1.width_eq hfr1.height_eq
      have hinm : ∀ c, gm.inb c ↔ g.inb c := by
        intro c
        unfold Grid.inb
        rw [hfr1.width_eq, hfr1.height_eq]
      have hallsome : ∀ c ∈ gm.get_neighbors cursor, ∃ s, gm.get_cell c = some s := by
        intro c hc
        rw [hnbrs] at hc
        exact Grid.get_cell_some_of_inb hsm
          ((hinm c).mpr (Grid.inb_of_mem_neighbors hin hc))
      obtain ⟨cands, hcands, hcmem, hccov⟩ := Grid.collectVisited_spec hallsome
      obtain ⟨w, hwmem, hwvis⟩ := (hld cursor d hcur (le_refl d)).1 hd1
      have hwne : w ≠ cursor := by
        intro h
        rw [h, hcur] at hwvis
        injection hwvis with h2
        injection h2 with h3
        omega
      have hwm : gm.get_cell w = some (CellState.Visited (d - 1)) := by
        rw [hmcell w hwne]
        exact hwvis
      have hwcand : (w, d - 1) ∈ cands :=
        hccov w (d - 1) (by rw [hnbrs]; exact hwmem) hwm
      cases hmin : Grid.minByDist cands with
      | none =>
        exfalso
        rw [Grid.minByDist_eq_none_iff.mp hmin] at hwcand
        simp at hwcand
      | some nd =>
        have hstep : Grid.color_path_go (f + 1) g cursor =
            Grid.color_path_go f gm nd.1 :=
          color_path_go_step hstart hcands hmin
        obtain ⟨hndmem, hndvis⟩ := hcmem nd (Grid.minByDist_mem hmin)
        have hndle : nd.2 ≤ d - 1 := Grid.minByDist_le hmin (w, d - 1) hwcand
        have hndin : gm.inb nd.1 := by
          rw [hinm]
          rw [hnbrs] at hndmem
          exact Grid.inb_of_mem_neighbors hin hndmem
        have hldm : LowDesc gm nd.2 := by
          intro c d' hc hle
          have hccur : c ≠ cursor := by
            intro h
            rw [h, Grid.get_cell_set_cell_same _ hs hin] at hc
            simp at hc
          rw [hmcell c hccur] at hc
          obtain ⟨hdesc, hzero⟩ := hld c d' hc (by omega)
          constructor
          · intro hd'
            obtain ⟨m, hm, hmv⟩ := hdesc hd'
            have hmne : m ≠ cursor := by
              intro h
              rw [h, hcur] at hmv
              injection hmv with h2
              injection h2 with h3
              omega
            exact ⟨m, by rw [hnbrs]; exact hm, by rw [hmcell m hmne]; exact hmv⟩
          · intro h0
            rw [hfr1.start_eq]
            exact hzero h0
        have hstm : gm.get_cell gm.start = some (CellState.Visited 0) := by
          rw [hfr1.start_eq, hfr1.start_cell_eq]
          exact hst
        obtain ⟨g', hrun, hs', hfr2⟩ :=
          ih nd.2 (by omega) f gm nd.1 (by omega) hsm hndin hndvis hldm hstm
        exact ⟨g', hstep.trans hrun, hs', hfr1.ctrans hfr2⟩

/-- Successful path reconstruction at the moment of completion. -/
theorem color_path_complete {g : Grid}
    (hs : g.Shape) (hcg : g.current = g.goal) (hsg : g.start ≠ g.goal)
    (hginb : g.inb g.goal)
    (hgoal : g.get_cell g.goal = some CellState.Unvisited)
    (hcd : 1 ≤ g.current_dist)
    (hwit : ∃ w ∈ g.get_neighbors g.goal,
      g.get_cell w = some (CellState.Visited (g.current_dist - 1)))
    (hld : LowDesc g (g.current_dist - 1))
    (hst : g.get_cell g.start = some (CellState.Visited 0)) :
    ∃ g', Grid.color_path (g.current_dist + 2) g = some g' ∧ g'.Shape ∧
      CPFrame g g' ∧ g'.get_cell g.goal = some CellState.OnPath := by
  have hgs : ¬ g.goal = g.start := fun h => hsg h.symm
  have hfr1 : CPFrame g (g.set_cell g.goal CellState.OnPath) :=
    mark_frame hs hginb hgs
  set gm := g.set_cell g.goal CellState.OnPath with hgm
  have hsm : gm.Shape := Grid.set_cell_shape hs
  have hmcell : ∀ c, c ≠ g.goal → gm.get_cell c = g.get_cell c := by
    intro c hc
    exact Grid.get_cell_set_cell_ne _ hc
  have hgoalm : gm.get_cell g.goal = some CellState.OnPath :=
    Grid.get_cell_set_cell_same _ hs hginb
  have hnbrs : ∀ c, gm.get_neighbors c = g.get_neighbors c :=
    Grid.get_neighbors_congr hfr1.width_eq hfr1.height_eq
  have hinm : ∀ c, gm.inb c ↔ g.inb c := by
    intro c
    unfold Grid.inb
    rw [hfr1.width_eq, hfr1.height_eq]
  have hallsome : ∀ c ∈ gm.get_neighbors g.goal, ∃ s, gm.get_cell c = some s := by
    intro c hc
    rw [hnbrs] at hc
    exact Grid.get_cell_some_of_inb hsm
      ((hinm c).mpr (Grid.inb_of_mem_neighbors hginb hc))
  obtain ⟨cands, hcands, hcmem, hccov⟩ := Grid.collectVisited_spec hallsome
  obtain ⟨w, hwmem, hwvis⟩ := hwit
  have hwne : w ≠ g.goal := by
    intro h
    rw [h, hgoal] at hwvis
    simp at hwvis
  have hwm : gm.get_cell w = some (CellState.Visited (g.current_dist - 1)) := by
    rw [hmcell w hwne]
    exact hwvis
  have hwcand : (w, g.current_dist - 1) ∈ cands :=
    hccov w (g.current_dist - 1) (by rw [hnbrs]; exact hwmem) hwm
  cases hmin : Grid.minByDist cands with
  | none =>
    exfalso
    rw [Grid.minByDist_eq_none_iff.mp hmin] at hwcand
    simp at hwcand
  | some nd =>
    have hstep : Grid.color_path_go (g.current_dist + 1 + 1) g g.goal =
        Grid.color_path_go (g.current_dist + 1) gm nd.1 :=
      color_path_go_step hgs hcands hmin
    obtain ⟨hndmem, hndvis⟩ := hcmem nd (Grid.minByDist_mem hmin)
    have hndle : nd.2 ≤ g.current_dist - 1 :=
      Grid.minByDist_le hmin (w, g.current_dist - 1) hwcand
    have hndin : gm.inb nd.1 := by
      rw [hinm]
      rw [hnbrs] at hndmem
      exact Grid.inb_of_mem_neighbors hginb hndmem
    have hldm : LowDesc gm nd.2 := by
      intro c d' hc hle
      have hcg' : c ≠ g.goal := by
        intro h
        rw [h, hgoalm] at hc
        simp at hc
      rw [hmcell c hcg'] at hc
      obtain ⟨hdesc, hzero⟩ := hld c d' hc (by omega)
      constructor
      · intro hd'
        obtain ⟨m, hm, hmv⟩ := hdesc hd'
        have hmne : m ≠ g.goal := by
          intro h
          rw [h, hgoal] at hmv
          simp at hmv
        exact ⟨m, by rw [hnbrs]; exact hm, by rw [hmcell m hmne]; exact hmv⟩
      · intro h0
        rw [hfr1.start_eq]
        exact hzero h0
    have hstm : gm.get_cell gm.start = some (CellState.Visited 0) := by
      rw [hfr1.start_eq, hfr1.start_cell_eq]
      exact hst
    obtain ⟨g', hrun, hs', hfr2⟩ :=
      cp_go_ok nd.2 (g.current_dist + 1) gm nd.1 (by omega) hsm hndin hndvis hldm hstm
    refine ⟨g', ?_, hs', hfr1.ctrans hfr2, ?_⟩
    · unfold Grid.color_path
      rw [if_pos hcg]
      show Grid.color_path_go (g.current_dist + 1 + 1) g g.goal = some g'
      exact hstep.trans hrun
    · rcases hfr2.mark_keep g.goal CellState.OnPath hgoalm with h | h <;> exact h

/-! ### Unfolding equations of one step -/

namespace Grid

theorem dijkstra_eq_completed {g : Grid} (h : g.current = g.goal) :
    g.dijkstra_iteration = some g := by
  unfold dijkstra_iteration
  rw [if_pos h]

theorem dijkstra_eq_popnone {g g1 : Grid} (hne : ¬ g.current = g.goal)
    (hfold : g.processNeighbors (g.get_neighbors g.current) = some g1)
    (hpop : popMax ((g1.set_cell g1.current
      (CellState.Visited g1.current_dist)).unvisited) = none) :
    g.dijkstra_iteration =
      some (g1.set_cell g1.current (CellState.Visited g1.current_dist)) := by
  unfold dijkstra_iteration
  rw [if_neg hne, hfold]
  simp only [hpop]

theorem dijkstra_eq_pop_cont {g g1 : Grid} {er : UnvisitedState × List UnvisitedState}
    (hne : ¬ g.current = g.goal)
    (hfold : g.processNeighbors (g.get_neighbors g.current) = some g1)
    (hpop : popMax ((g1.set_cell g1.current
      (CellState.Visited g1.current_dist)).unvisited) = some er)
    (hne2 : ¬ er.1.cell =
      (g1.set_cell g1.current (CellState.Visited g1.current_dist)).goal) :
    g.dijkstra_iteration =
      some { g1.set_cell g1.current (CellState.Visited g1.current_dist) with
        unvisited := er.2
        current := er.1.cell
        current_dist := er.1.actual_dist } := by
  unfold dijkstra_iteration
  rw [if_neg hne, hfold]
  simp only [hpop]
  split
  · rename_i h
    exact absurd h hne2
  · rfl

theorem dijkstra_eq_pop_complete {g g1 : Grid} {er : UnvisitedState × List UnvisitedState}
    (hne : ¬ g.current = g.goal)
    (hfold : g.processNeighbors (g.get_neighbors g.current) = some g1)
    (hpop : popMax ((g1.set_cell g1.current
      (CellState.Visited g1.current_dist)).unvisited) = some er)
    (heq2 : er.1.cell =
      (g1.set_cell g1.current (CellState.Visited g1.current_dist)).goal) :
    g.dijkstra_iteration =
      color_path (er.1.actual_dist + 2)
        { g1.set_cell g1.current (CellState.Visited g1.current_dist) with
          unvisited := er.2
          current := er.1.cell
          current_dist := er.1.actual_dist } := by
  unfold dijkstra_iteration
  rw [if_neg hne, hfold]
  simp only [hpop]
  split
  · rfl
  · rename_i h
    exact absurd heq2 h

end Grid

/-! ### A step from an exhausted state changes nothing -/

theorem processNeighbors_noop {g : Grid} (hG : InvG g) (hE : InvExh g) :
    ∀ ns : List (ℕ × ℕ), (∀ n ∈ ns, n ∈ g.get_neighbors g.current) →
    g.processNeighbors ns = some g := by
  intro ns
  induction ns with
  | nil => intro _; rfl
  | cons n ns ih =>
    intro hns
    have hmem : n ∈ g.get_neighbors g.current := hns n (by simp)
    have hnin : g.inb n := Grid.inb_of_mem_neighbors hG.cur_inb hmem
    obtain ⟨s, hs⟩ := Grid.get_cell_some_of_inb hG.shape hnin
    have hrest : g.processNeighbors ns = some g :=
      ih (fun m hm => hns m (by simp [hm]))
    cases s with
    | Unknown =>
      exact absurd hs
        (hG.vis_closed g.current g.current_dist hE.cur_state n hmem)
    | Unvisited => exact absurd hs (hE.no_unvisited n)
    | OnPath => exact absurd hs (hG.onpath_only_completed hE.hcur n)
    | Obstacle =>
      unfold Grid.processNeighbors
      rw [Grid.processNeighbor_obstacle hs]
      exact hrest
    | Visited d =>
      unfold Grid.processNeighbors
      rw [Grid.processNeighbor_visited hs (visited_assert hG hmem hs)]
      exact hrest

theorem exh_noop {g : Grid} (hG : InvG g) (hE : InvExh g) :
    g.dijkstra_iteration = some g := by
  have hfold : g.processNeighbors (g.get_neighbors g.current) = some g :=
    processNeighbors_noop hG hE _ (fun _ h => h)
  have hset : g.set_cell g.current (CellState.Visited g.current_dist) = g :=
    Grid.set_cell_self hE.cur_state
  have hpop : popMax ((g.set_cell g.current
      (CellState.Visited g.current_dist)).unvisited) = none := by
    rw [hset, hE.heap_empty]
    rfl
  rw [Grid.dijkstra_eq_popnone hE.hcur hfold hpop, hset]

/-! ### Settling the current cell -/

/-- Facts holding right after the current cell is settled (between the
neighbour loop and the pop). -/
structure SettleFacts (g2 : Grid) : Prop where
  invg : InvG g2
  hcur : g2.current ≠ g2.goal
  cur_vis : g2.get_cell g2.current = some (CellState.Visited g2.current_dist)
  start_vis0 : g2.get_cell g2.start = some (CellState.Visited 0)
  no_onpath : ∀ c, g2.get_cell c ≠ some CellState.OnPath
  ent_inb : ∀ e ∈ g2.unvisited, g2.inb e.cell
  ent_state : ∀ e ∈ g2.unvisited, g2.get_cell e.cell = some CellState.Unvisited
  ent_key : ∀ e ∈ g2.unvisited, e.dist = e.actual_dist + g2.hg e.cell
  ent_lb : ∀ e ∈ g2.unvisited, g2.curKey ≤ e.dist
  ent_pos : ∀ e ∈ g2.unvisited, 1 ≤ e.actual_dist
  ent_nodup : (g2.unvisited.map UnvisitedState.cell).Nodup
  ent_desc : EntDesc g2
  unv_cov : ∀ c, g2.get_cell c = some CellState.Unvisited →
    ∃ e ∈ g2.unvisited, e.cell = c
  vis_desc : ∀ c d, g2.get_cell c = some (CellState.Visited d) → 1 ≤ d →
    ∃ n ∈ g2.get_neighbors c, g2.get_cell n = some (CellState.Visited (d - 1))

theorem lowdesc_of {g : Grid}
    (hvd : ∀ c d', g.get_cell c = some (CellState.Visited d') → 1 ≤ d' →
      ∃ n ∈ g.get_neighbors c, g.get_cell n = some (CellState.Visited (d' - 1)))
    (hvz : ∀ c, g.get_cell c = some (CellState.Visited 0) → c = g.start)
    (d : ℕ) : LowDesc g d := by
  intro c d' hc _
  refine ⟨fun h1 => hvd c d' hc h1, fun h0 => hvz c ?_⟩
  rw [h0] at hc
  exact hc

theorem settle_spec {g1 : Grid} (hG : InvG g1) (hA : ActCore g1) (hW : EntDescW g1)
    (hpost : ∀ n ∈ g1.get_neighbors g1.current, g1.get_cell n ≠ some CellState.Unknown) :
    SettleFacts (g1.set_cell g1.current (CellState.Visited g1.current_dist)) := by
  set g2 := g1.set_cell g1.current (CellState.Visited g1.current_dist) with hg2
  have hcu : g2.current = g1.current := Grid.set_cell_current _ _ _
  have hst : g2.start = g1.start := Grid.set_cell_start _ _ _
  have hgo : g2.goal = g1.goal := Grid.set_cell_goal _ _ _
  have hcd : g2.current_dist = g1.current_dist := Grid.set_cell_current_dist _ _ _
  have hun : g2.unvisited = g1.unvisited := Grid.set_cell_unvisited _ _ _
  have hsame : g2.get_cell g1.current = some (CellState.Visited g1.current_dist) :=
    Grid.get_cell_set_cell_same _ hG.shape hG.cur_inb
  have hother : ∀ c, c ≠ g1.current → g2.get_cell c = g1.get_cell c := by
    intro c hc
    exact Grid.get_cell_set_cell_ne _ hc
  have hhg : ∀ c, g2.hg c = g1.hg c :=
    hg_congr (Grid.set_cell_enable_astar _ _ _) hgo
  have hnb : ∀ c, g2.get_neighbors c = g1.get_neighbors c :=
    Grid.get_neighbors_congr (Grid.set_cell_width _ _ _) (Grid.set_cell_height _ _ _)
  have hinb2 : ∀ c, g2.inb c ↔ g1.inb c := fun c => Grid.set_cell_inb _ _ _ _
  have hkey : g2.curKey = g1.curKey := by
    unfold Grid.curKey
    rw [hcd, hcu, hhg]
  have hgc : g1.goal ≠ g1.current := fun h => hA.hcur h.symm
  have hnoonpath : ∀ c, g2.get_cell c ≠ some CellState.OnPath := by
    intro c
    by_cases hc : c = g1.current
    · rw [hc, hsame]; simp
    · rw [hother c hc]
      exact hG.onpath_only_completed hA.hcur c
  have hstart0 : g2.get_cell g2.start = some (CellState.Visited 0) := by
    rw [hst]
    by_cases hc : g1.start = g1.current
    · rw [hc, hsame, hG.cur_start_dist hc.symm]
    · rw [hother _ hc]
      exact hG.start_visited (fun h => hc h.symm)
  have hvisdesc : ∀ c d, g2.get_cell c = some (CellState.Visited d) → 1 ≤ d →
      ∃ n ∈ g2.get_neighbors c, g2.get_cell n = some (CellState.Visited (d - 1)) := by
    intro c d hc hd
    by_cases hcc : c = g1.current
    · subst hcc
      rw [hsame] at hc
      injection hc with hc
      injection hc with hc
      subst hc
      obtain ⟨m, hm, hmv⟩ := hA.cur_desc hd
      have hmne : m ≠ g1.current := adj_ne (Grid.adj_of_mem_neighbors hm)
      exact ⟨m, by rw [hnb]; exact hm, by rw [hother m hmne]; exact hmv⟩
    · rw [hother c hcc] at hc
      obtain ⟨m, hm, hmv⟩ := hA.vis_desc c d hc hd
      have hmne : m ≠ g1.current := by
        intro he
        rcases hA.cur_state with hs | ⟨hs, -, -⟩ <;> rw [← he] at hs <;>
          rw [hmv] at hs <;> simp at hs
      exact ⟨m, by rw [hnb]; exact hm, by rw [hother m hmne]; exact hmv⟩
  refine ⟨?_, ?_, ?_, hstart0, hnoonpath, ?_, ?_, ?_, ?_, ?_, ?_, ?_, ?_, hvisdesc⟩
  · -- InvG
    refine ⟨Grid.set_cell_shape hG.shape, ?_, ?_, ?_, ?_, ?_, ?_, ?_, ?_, ?_, ?_, ?_, ?_⟩
    · rw [hcu, hinb2]; exact hG.cur_inb
    · rw [hst, hinb2]; exact hG.start_inb
    · rw [hgo, hinb2]; exact hG.goal_inb
    · intro d
      rw [hgo, hother _ hgc]
      exact hG.goal_not_visited d
    · rw [hst]
      by_cases hc : g1.start = g1.current
      · rw [hc, hsame]; simp
      · rw [hother _ hc]
        exact hG.start_not_onpath
    · rw [hst, hgo, hcu]
      exact hG.start_goal
    · rw [hcu, hst, hcd]
      exact hG.cur_start_dist
    · intro _
      exact hstart0
    · intro _
      exact hnoonpath
    · intro c d hc
      rw [hkey, hhg]
      by_cases hcc : c = g1.current
      · subst hcc
        rw [hsame] at hc
        injection hc with hc
        injection hc with hc
        subst hc
        unfold Grid.curKey
        exact le_refl _
      · rw [hother c hcc] at hc
        exact hG.vis_key c d hc
    · intro c d hc m hm
      rw [hnb] at hm
      by_cases hcc : c = g1.current
      · subst hcc
        have := hpost m hm
        by_cases hmc : m = g1.current
        · rw [hmc, hsame]; simp
        · rw [hother m hmc]
          exact this
      · rw [hother c hcc] at hc
        by_cases hmc : m = g1.current
        · rw [hmc, hsame]; simp
        · rw [hother m hmc]
          exact hG.vis_closed c d hc m hm
    · intro c hc
      rw [hst]
      by_cases hcc : c = g1.current
      · subst hcc
        rw [hsame] at hc
        injection hc with hc
        injection hc with hc
        exact hA.cur_zero hc
      · rw [hother c hcc] at hc
        exact hG.vis_zero c hc
  · rw [hcu, hgo]; exact hA.hcur
  · rw [hcu, hcd]; exact hsame
  · intro e he
    rw [hun] at he
    rw [hinb2]
    exact hA.ent_inb e he
  · intro e he
    rw [hun] at he
    rw [hother _ (hA.ent_ne_cur e he)]
    exact hA.ent_state e he
  · intro e he
    rw [hun] at he
    rw [hhg]
    exact hA.ent_key e he
  · intro e he
    rw [hun] at he
    rw [hkey]
    rcases hA.ent_lb e he with h | ⟨h, -⟩
    · exact le_of_lt h
    · exact h.ge
  · intro e he
    rw [hun] at he
    exact hA.ent_pos e he
  · rw [hun]
    exact hA.ent_nodup
  · intro e he
    rw [hun] at he
    rcases hW e he with ⟨m, hm, hmv⟩ | ⟨ha, hn⟩
    · have hmne : m ≠ g1.current := by
        intro hh
        rcases hA.cur_state with hs | ⟨hs, -, -⟩ <;> rw [← hh] at hs <;>
          rw [hmv] at hs <;> simp at hs
      exact ⟨m, by rw [hnb]; exact hm, by rw [hother m hmne]; exact hmv⟩
    · refine ⟨g1.current, ?_, ?_⟩
      · rw [hnb]
        exact Grid.mem_neighbors_of_adj hG.cur_inb
          (adj_symm (Grid.adj_of_mem_neighbors hn))
      · rw [hsame, ha]
        simp
  · intro c hc
    by_cases hcc : c = g1.current
    · rw [hcc, hsame] at hc
      simp at hc
    · rw [hother c hcc] at hc
      rcases hA.unv_cov c hc with h | ⟨e, he, hec⟩
      · exact absurd h hcc
      · exact ⟨e, by rw [hun]; exact he, hec⟩

/-! ### Popping the next cursor -/

theorem pop_invg {g2 : Grid} (hS : SettleFacts g2) {e : UnvisitedState}
    {rest : List UnvisitedState} (hpop : popMax g2.unvisited = some (e, rest)) :
    InvG { g2 with
      unvisited := rest
      current := e.cell
      current_dist := e.actual_dist } := by
  have hmem : e ∈ g2.unvisited := popMax_mem hpop
  have hkey3 : ({ g2 with
      unvisited := rest
      current := e.cell
      current_dist := e.actual_dist } : Grid).curKey = e.dist := by
    show e.actual_dist + g2.hg e.cell = e.dist
    exact (hS.ent_key e hmem).symm
  refine ⟨hS.invg.shape, ?_, hS.invg.start_inb, hS.invg.goal_inb, ?_, ?_, ?_, ?_, ?_, ?_,
    ?_, ?_, ?_⟩
  · exact hS.ent_inb e hmem
  · exact hS.invg.goal_not_visited
  · exact hS.invg.start_not_onpath
  · intro h
    exact absurd (hS.invg.start_goal h) hS.hcur
  · intro h
    have h' : e.cell = g2.start := h
    have h1 := hS.ent_state e hmem
    rw [h', hS.start_vis0] at h1
    simp at h1
  · intro _
    exact hS.start_vis0
  · intro _ c
    exact hS.no_onpath c
  · intro c d hc
    rw [hkey3]
    show d + g2.hg c ≤ e.dist
    have h1 := hS.invg.vis_key c d hc
    have h2 := hS.ent_lb e hmem
    omega
  · exact hS.invg.vis_closed
  · exact hS.invg.vis_zero

theorem pop_act {g2 : Grid} (hS : SettleFacts g2) {e : UnvisitedState}
    {rest : List UnvisitedState} (hpop : popMax g2.unvisited = some (e, rest))
    (hne : ¬ e.cell = g2.goal) :
    InvAct { g2 with
      unvisited := rest
      current := e.cell
      current_dist := e.actual_dist } := by
  have hmem : e ∈ g2.unvisited := popMax_mem hpop
  have hperm : g2.unvisited.Perm (e :: rest) := popMax_perm hpop
  have hrest_sub : ∀ x ∈ rest, x ∈ g2.unvisited := by
    intro x hx
    exact hperm.mem_iff.mpr (List.mem_cons_of_mem _ hx)
  have hnodup' : ((e :: rest).map UnvisitedState.cell).Nodup :=
    ((hperm.map UnvisitedState.cell).nodup_iff).mp hS.ent_nodup
  rw [List.map_cons, List.nodup_cons] at hnodup'
  have hkey3 : ({ g2 with
      unvisited := rest
      current := e.cell
      current_dist := e.actual_dist } : Grid).curKey = e.dist := by
    show e.actual_dist + g2.hg e.cell = e.dist
    exact (hS.ent_key e hmem).symm
  constructor
  · refine ⟨hne, ?_, ?_, ?_, ?_, ?_, ?_, ?_, ?_, ?_, ?_, ?_, ?_⟩
    · exact Or.inl (hS.ent_state e hmem)
    · intro h
      have h' : e.actual_dist = 0 := h
      have := hS.ent_pos e hmem
      omega
    · intro x hx
      exact hS.ent_inb x (hrest_sub x hx)
    · intro x hx
      exact hS.ent_state x (hrest_sub x hx)
    · intro x hx
      intro hcell
      exact hnodup'.1 (List.mem_map.mpr ⟨x, hx, hcell⟩)
    · intro x hx
      exact hS.ent_key x (hrest_sub x hx)
    · intro x hx
      rw [hkey3]
      have hmax := popMax_max hpop x (hrest_sub x hx)
      rw [Ne, usCmp_eq_gt] at hmax
      show e.dist < x.dist ∨ (x.dist = e.dist ∧ e.actual_dist ≤ x.actual_dist)
      omega
    · intro x hx
      exact hS.ent_pos x (hrest_sub x hx)
    · exact hnodup'.2
    · intro c hc
      obtain ⟨x, hx, hxc⟩ := hS.unv_cov c hc
      rcases List.mem_cons.mp (hperm.mem_iff.mp hx) with hxe | hxr
      · left
        show c = e.cell
        rw [← hxc, hxe]
      · right
        exact ⟨x, hxr, hxc⟩
    · intro _
      exact hS.ent_desc e hmem
    · intro c d hc hd
      exact hS.vis_desc c d hc hd
  · intro x hx
    exact hS.ent_desc x (hrest_sub x hx)

/-! ### The master step theorem -/

theorem curKey_congr {g g' : Grid} (ha : g'.enable_astar = g.enable_astar)
    (hgo : g'.goal = g.goal) (hcu : g'.current = g.current)
    (hcd : g'.current_dist = g.current_dist) : g'.curKey = g.curKey := by
  unfold Grid.curKey
  rw [hcd, hcu, hg_congr ha hgo]

/-- Observable relations between the states before and after one step. -/
structure StepFacts (g g' : Grid) : Prop where
  start_eq : g'.start = g.start
  goal_eq : g'.goal = g.goal
  astar_eq : g'.enable_astar = g.enable_astar
  key_mono : g.curKey ≤ g'.curKey
  vis_prov : ∀ c d, g'.get_cell c = some (CellState.Visited d) →
    g.get_cell c = some (CellState.Visited d) ∨ (c = g.current ∧ d = g.current_dist)
  complete_trans : g'.current = g'.goal → g.current ≠ g.goal →
    (g.get_cell g.goal = some CellState.Unvisited ∨
      g.get_cell g.goal = some CellState.Unknown) ∧
    g'.get_cell g.goal = some CellState.OnPath

theorem step_spec {g : Grid} (hI : GInv g) :
    ∃ g', g.dijkstra_iteration = some g' ∧ GInv g' ∧ StepFacts g g' ∧
      (MPart g → MPart g') := by
  obtain ⟨hG, hph⟩ := hI
  by_cases hterm : g.current = g.goal
  · refine ⟨g, Grid.dijkstra_eq_completed hterm, ⟨hG, Or.inl hterm⟩,
      ⟨rfl, rfl, rfl, le_refl _, fun c d h => Or.inl h, ?_⟩, fun h => h⟩
    intro _ h2
    exact absurd hterm h2
  · rcases hph with hc | ⟨hA, hD⟩ | hexh
    · exact absurd hc hterm
    · -- running state
      have hW : EntDescW g := fun e he => Or.inl (hD e he)
      obtain ⟨g1, hfold, hG1, hA1, hW1, hF1, hM1, hpost⟩ :=
        processNeighbors_spec (g.get_neighbors g.current) g hG hA hW (fun _ h => h)
      have hpost1 : ∀ n ∈ g1.get_neighbors g1.current,
          g1.get_cell n ≠ some CellState.Unknown := by
        intro n hn
        rw [Grid.get_neighbors_congr hF1.width_eq hF1.height_eq, hF1.current_eq] at hn
        exact hpost n hn
      have hS := settle_spec hG1 hA1 hW1 hpost1
      have hkey01 : g1.curKey = g.curKey :=
        curKey_congr hF1.astar_eq hF1.goal_eq hF1.current_eq hF1.current_dist_eq
      set g2 := g1.set_cell g1.current (CellState.Visited g1.current_dist) with hg2def
      have hkey12 : g2.curKey = g1.curKey :=
        curKey_congr (Grid.set_cell_enable_astar _ _ _) (Grid.set_cell_goal _ _ _)
          (Grid.set_cell_current _ _ _) (Grid.set_cell_current_dist _ _ _)
      have hst2 : g2.start = g.start := by
        rw [Grid.set_cell_start, hF1.start_eq]
      have hgo2 : g2.goal = g.goal := by
        rw [Grid.set_cell_goal, hF1.goal_eq]
      have has2 : g2.enable_astar = g.enable_astar := by
        rw [Grid.set_cell_enable_astar, hF1.astar_eq]
      have hun2 : g2.unvisited = g1.unvisited := Grid.set_cell_unvisited _ _ _
      have hprov2 : ∀ c d, g2.get_cell c = some (CellState.Visited d) →
          g.get_cell c = some (CellState.Visited d) ∨
            (c = g.current ∧ d = g.current_dist) := by
        intro c d hc
        by_cases hcc : c = g1.current
        · right
          rw [hcc, Grid.get_cell_set_cell_same _ hG1.shape hG1.cur_inb] at hc
          injection hc with hc
          injection hc with hc
          exact ⟨by rw [hcc, hF1.current_eq], by rw [← hc, hF1.current_dist_eq]⟩
        · rw [Grid.get_cell_set_cell_ne _ hcc] at hc
          rcases hF1.back c _ hc with h | ⟨he, -⟩
          · exact Or.inl h
          · simp at he
      cases hpop : popMax g2.unvisited with
      | none =>
        have hemp : g2.unvisited = [] := popMax_eq_none_iff.mp hpop
        refine ⟨g2, Grid.dijkstra_eq_popnone hterm hfold hpop,
          ⟨hS.invg, Or.inr (Or.inr ⟨hS.hcur, hS.cur_vis, hemp, ?_⟩)⟩,
          ⟨hst2, hgo2, has2, by rw [hkey12, hkey01], hprov2, ?_⟩, ?_⟩
        · intro c hc
          obtain ⟨x, hx, -⟩ := hS.unv_cov c hc
          rw [hemp] at hx
          simp at hx
        · intro h1 _
          exact absurd h1 hS.hcur
        · intro hM
          have hMg1 := hM1 hM
          refine ⟨?_, ?_, ?_, ?_⟩
          · intro c h
            by_cases hcc : c = g1.current
            · rw [hcc, Grid.get_cell_set_cell_same _ hG1.shape hG1.cur_inb] at h
              simp at h
            · rw [Grid.get_cell_set_cell_ne _ hcc] at h
              exact hMg1.no_obstacle c h
          · intro e he
            rw [hun2] at he
            rw [show g2.start = g1.start from Grid.set_cell_start _ _ _]
            exact hMg1.ent_manhattan e he
          · rw [show g2.start = g1.start from Grid.set_cell_start _ _ _,
              Grid.set_cell_current_dist, Grid.set_cell_current]
            exact hMg1.cur_manhattan
          · rw [hS.start_vis0]
            simp
      | some er =>
        obtain ⟨e, rest⟩ := er
        have hmem : e ∈ g2.unvisited := popMax_mem hpop
        have hkeyG3 : ({ g2 with
            unvisited := rest
            current := e.cell
            current_dist := e.actual_dist } : Grid).curKey = e.dist := by
          show e.actual_dist + g2.hg e.cell = e.dist
          exact (hS.ent_key e hmem).symm
        have hG3 := pop_invg hS hpop
        have hkmono : g.curKey ≤ e.dist := by
          have := hS.ent_lb e hmem
          omega
        by_cases hcompl : e.cell = g2.goal
        · -- completion
          have hsg : ({ g2 with
              unvisited := rest
              current := e.cell
              current_dist := e.actual_dist } : Grid).start ≠
              ({ g2 with
              unvisited := rest
              current := e.cell
              current_dist := e.actual_dist } : Grid).goal := by
            show g2.start ≠ g2.goal
            intro h
            exact hS.hcur (hS.invg.start_goal h)
          have hgoalcell : ({ g2 with
              unvisited := rest
              current := e.cell
              current_dist := e.actual_dist } : Grid).get_cell
              ({ g2 with
              unvisited := rest
              current := e.cell
              current_dist := e.actual_dist } : Grid).goal =
              some CellState.Unvisited := by
            show g2.get_cell g2.goal = some CellState.Unvisited
            rw [← hcompl]
            exact hS.ent_state e hmem
          have hwit3 : ∃ w ∈ ({ g2 with
              unvisited := rest
              current := e.cell
              current_dist := e.actual_dist } : Grid).get_neighbors
                ({ g2 with
              unvisited := rest
              current := e.cell
              current_dist := e.actual_dist } : Grid).goal,
              ({ g2 with
              unvisited := rest
              current := e.cell
              current_dist := e.actual_dist } : Grid).get_cell w =
                some (CellState.Visited (({ g2 with
              unvisited := rest
              current := e.cell
              current_dist := e.actual_dist } : Grid).current_dist - 1)) := by
            show ∃ w ∈ g2.get_neighbors g2.goal,
              g2.get_cell w = some (CellState.Visited (e.actual_dist - 1))
            rw [← hcompl]
            exact hS.ent_desc e hmem
          obtain ⟨g4, hrun, hs4, hfr, hgoal4⟩ :=
            color_path_complete hG3.shape (show e.cell = g2.goal from hcompl) hsg
              hG3.goal_inb hgoalcell (hS.ent_pos e hmem) hwit3
              (lowdesc_of hS.vis_desc hG3.vis_zero _) hS.start_vis0
          have hstep : g.dijkstra_iteration = some g4 := by
            rw [Grid.dijkstra_eq_pop_complete hterm hfold hpop hcompl]
            exact hrun
          have hcompleted : g4.current = g4.goal := by
            rw [hfr.current_eq, hfr.goal_eq]
            exact hcompl
          have hinb4 : ∀ c, g4.inb c ↔ g2.inb c := by
            intro c
            unfold Grid.inb
            rw [hfr.width_eq, hfr.height_eq]
            exact Iff.rfl
          have hkey4 : g4.curKey = e.dist := by
            rw [curKey_congr hfr.astar_eq hfr.goal_eq hfr.current_eq hfr.current_dist_eq]
            exact hkeyG3
          have hhg4 : ∀ c, g4.hg c = g2.hg c := hg_congr hfr.astar_eq hfr.goal_eq
          have hnb4 : ∀ c, g4.get_neighbors c = g2.get_neighbors c :=
            Grid.get_neighbors_congr hfr.width_eq hfr.height_eq
          have hst4 : g4.get_cell g2.start = some (CellState.Visited 0) := by
            have h1 := hfr.start_cell_eq
            rw [show ({ g2 with
              unvisited := rest
              current := e.cell
              current_dist := e.actual_dist } : Grid).start = g2.start from rfl] at h1
            rw [h1]
            exact hS.start_vis0
          refine ⟨g4, hstep, ⟨⟨hs4, ?_, ?_, ?_, ?_, ?_, ?_, ?_, ?_, ?_, ?_, ?_, ?_⟩,
            Or.inl hcompleted⟩, ⟨?_, ?_, ?_, ?_, ?_, ?_⟩, ?_⟩
          · rw [hinb4, hfr.current_eq]
            exact hG3.cur_inb
          · rw [hinb4, hfr.start_eq]
            exact hG3.start_inb
          · rw [hinb4, hfr.goal_eq]
            exact hG3.goal_inb
          · intro d
            rw [hfr.goal_eq]
            rw [show ({ g2 with
              unvisited := rest
              current := e.cell
              current_dist := e.actual_dist } : Grid).goal = g2.goal from rfl]
            rw [show g4.get_cell g2.goal = some CellState.OnPath from hgoal4]
            simp
          · rw [hfr.start_eq]
            rw [show ({ g2 with
              unvisited := rest
              current := e.cell
              current_dist := e.actual_dist } : Grid).start = g2.start from rfl]
            rw [hst4]
            simp
          · intro _
            exact hcompleted
          · intro h
            rw [hfr.current_eq, hfr.start_eq] at h
            have hh : g2.start = g2.goal := by
              have : ({ g2 with
                unvisited := rest
                current := e.cell
                current_dist := e.actual_dist } : Grid).start = e.cell := h.symm
              rw [show ({ g2 with
                unvisited := rest
                current := e.cell
                current_dist := e.actual_dist } : Grid).start = g2.start from rfl] at this
              rw [this, hcompl]
            exact (hsg hh).elim
          · intro _
            rw [hfr.start_eq]
            rw [show ({ g2 with
              unvisited := rest
              current := e.cell
              current_dist := e.actual_dist } : Grid).start = g2.start from rfl]
            exact hst4
          · intro h
            exact absurd hcompleted h
          · intro c d hc
            rcases hfr.mark_back c _ hc with h | h
            · have := hG3.vis_key c d h
              rw [hkey4, hhg4]
              rw [hkeyG3] at this
              calc d + g2.hg c = d + ({ g2 with
                  unvisited := rest
                  current := e.cell
                  current_dist := e.actual_dist } : Grid).hg c := rfl
                _ ≤ e.dist := this
            · simp at h
          · intro c d hc m hm hunk
            rcases hfr.mark_back c _ hc with h | h
            · rw [hnb4] at hm
              rcases hfr.mark_back m _ hunk with h2 | h2
              · exact hG3.vis_closed c d h m hm h2
              · simp at h2
            · simp at h
          · intro c hc
            rcases hfr.mark_back c _ hc with h | h
            · rw [hfr.start_eq]
              exact hG3.vis_zero c h
            · simp at h
          · rw [hfr.start_eq]
            exact hst2
          · rw [hfr.goal_eq]
            exact hgo2
          · rw [hfr.astar_eq]
            exact has2
          · rw [hkey4]
            exact hkmono
          · intro c d hc
            rcases hfr.mark_back c _ hc with h | h
            · exact hprov2 c d h
            · simp at h
          · intro _ _
            constructor
            · have hgoal1 : g1.get_cell g1.goal = some CellState.Unvisited := by
                have hgc : g1.goal ≠ g1.current := fun h => hA1.hcur h.symm
                have h2 : g2.get_cell g1.goal = g1.get_cell g1.goal :=
                  Grid.get_cell_set_cell_ne _ hgc
                have h3 : g2.get_cell g2.goal = some CellState.Unvisited := by
                  rw [← hcompl]
                  exact hS.ent_state e hmem
                rw [show g2.goal = g1.goal from Grid.set_cell_goal _ _ _] at h3
                rw [← h2]
                exact h3
              rcases hF1.back g1.goal _ hgoal1 with h | ⟨-, h⟩
              · left
                rw [← hF1.goal_eq]
                exact h
              · right
                rw [← hF1.goal_eq]
                exact h
            · rw [← hgo2]
              exact hgoal4
          · intro hM
            have hMg1 := hM1 hM
            refine ⟨?_, ?_, ?_, ?_⟩
            · intro c h
              rcases hfr.mark_back c _ h with h2 | h2
              · by_cases hcc : c = g1.current
                · rw [show ({ g2 with
                    unvisited := rest
                    current := e.cell
                    current_dist := e.actual_dist } : Grid).get_cell c = g2.get_cell c
                    from rfl] at h2
                  rw [hcc, Grid.get_cell_set_cell_same _ hG1.shape hG1.cur_inb] at h2
                  simp at h2
                · rw [show ({ g2 with
                    unvisited := rest
                    current := e.cell
                    current_dist := e.actual_dist } : Grid).get_cell c = g2.get_cell c
                    from rfl] at h2
                  rw [Grid.get_cell_set_cell_ne _ hcc] at h2
                  exact hMg1.no_obstacle c h2
              · simp at h2
            · intro x hx
              rw [hfr.unvisited_eq] at hx
              have hx2 : x ∈ g2.unvisited := by
                have hperm : g2.unvisited.Perm (e :: rest) := popMax_perm hpop
                exact hperm.mem_iff.mpr (List.mem_cons_of_mem _ hx)
              rw [hun2] at hx2
              rw [hfr.start_eq]
              rw [show ({ g2 with
                unvisited := rest
                current := e.cell
                current_dist := e.actual_dist } : Grid).start = g2.start from rfl]
              rw [show g2.start = g1.start from Grid.set_cell_start _ _ _]
              exact hMg1.ent_manhattan x hx2
            · rw [hfr.current_dist_eq, hfr.current_eq, hfr.start_eq]
              show e.actual_dist = manhattan ({ g2 with
                unvisited := rest
                current := e.cell
                current_dist := e.actual_dist } : Grid).start e.cell
              rw [show ({ g2 with
                unvisited := rest
                current := e.cell
                current_dist := e.actual_dist } : Grid).start = g2.start from rfl]
              rw [show g2.start = g1.start from Grid.set_cell_start _ _ _]
              have he1 : e ∈ g1.unvisited := by rw [← hun2]; exact hmem
              exact hMg1.ent_manhattan e he1
            · rw [hfr.start_eq]
              rw [show ({ g2 with
                unvisited := rest
                current := e.cell
                current_dist := e.actual_dist } : Grid).start = g2.start from rfl]
              rw [hst4]
              simp
        · -- continue
          have hA3 := pop_act hS hpop hcompl
          refine ⟨_, Grid.dijkstra_eq_pop_cont hterm hfold hpop hcompl,
            ⟨hG3, Or.inr (Or.inl hA3)⟩, ⟨?_, ?_, ?_, ?_, ?_, ?_⟩, ?_⟩
          · show g2.start = g.start
            exact hst2
          · show g2.goal = g.goal
            exact hgo2
          · show g2.enable_astar = g.enable_astar
            exact has2
          · rw [hkeyG3]
            exact hkmono
          · intro c d hc
            exact hprov2 c d hc
          · intro h1 _
            exact absurd h1 hcompl
          · intro hM
            have hMg1 := hM1 hM
            have hperm : g2.unvisited.Perm (e :: rest) := popMax_perm hpop
            refine ⟨?_, ?_, ?_, ?_⟩
            · intro c h
              by_cases hcc : c = g1.current
              · rw [show ({ g2 with
                  unvisited := rest
                  current := e.cell
                  current_dist := e.actual_dist } : Grid).get_cell c = g2.get_cell c
                  from rfl] at h
                rw [hcc, Grid.get_cell_set_cell_same _ hG1.shape hG1.cur_inb] at h
                simp at h
              · rw [show ({ g2 with
                  unvisited := rest
                  current := e.cell
                  current_dist := e.actual_dist } : Grid).get_cell c = g2.get_cell c
                  from rfl] at h
                rw [Grid.get_cell_set_cell_ne _ hcc] at h
                exact hMg1.no_obstacle c h
            · intro x hx
              have hx2 : x ∈ g2.unvisited :=
                hperm.mem_iff.mpr (List.mem_cons_of_mem _ hx)
              rw [hun2] at hx2
              show x.actual_dist = manhattan g2.start x.cell
              rw [show g2.start = g1.start from Grid.set_cell_start _ _ _]
              exact hMg1.ent_manhattan x hx2
            · show e.actual_dist = manhattan g2.start e.cell
              rw [show g2.start = g1.start from Grid.set_cell_start _ _ _]
              have he1 : e ∈ g1.unvisited := by rw [← hun2]; exact hmem
              exact hMg1.ent_manhattan e he1
            · show ({ g2 with
                unvisited := rest
                current := e.cell
                current_dist := e.actual_dist } : Grid).get_cell g2.start ≠
                  some CellState.Unknown
              rw [show ({ g2 with
                unvisited := rest
                current := e.cell
                current_dist := e.actual_dist } : Grid).get_cell g2.start =
                  g2.get_cell g2.start from rfl]
              rw [hS.start_vis0]
              simp
    · -- exhausted state
      refine ⟨g, exh_noop hG hexh, ⟨hG, Or.inr (Or.inr hexh)⟩,
        ⟨rfl, rfl, rfl, le_refl _, fun c d h => Or.inl h, ?_⟩, fun h => h⟩
      intro h1 _
      exact absurd h1 hexh.hcur

/-! ### Construction and obstacle painting -/

theorem get_cell_set_cell_cases {g : Grid} {c c' : ℕ × ℕ} {s0 s : CellState}
    (h : (g.set_cell c s0).get_cell c' = some s) :
    g.get_cell c' = some s ∨ (c' = c ∧ s = s0) := by
  by_cases hc : c' = c
  · subst hc
    unfold Grid.set_cell at h
    cases hcol : g.cells[c'.1]? with
    | none => rw [hcol] at h; exact Or.inl h
    | some col =>
      rw [hcol] at h
      obtain ⟨hlt, -⟩ := List.getElem?_eq_some_iff.mp hcol
      simp only [Grid.get_cell] at h
      rw [List.getElem?_set_self hlt] at h
      simp only [Option.some_bind] at h
      by_cases h2 : c'.2 < col.length
      · rw [List.getElem?_set_self h2] at h
        injection h with h
        exact Or.inr ⟨rfl, h.symm⟩
      · rw [List.set_eq_of_length_le (by omega)] at h
        left
        rw [Grid.get_cell, hcol]
        exact h
  · rw [Grid.get_cell_set_cell_ne _ hc] at h
    exact Or.inl h

theorem get_cell_set_cell_keep {g : Grid} {c c' : ℕ × ℕ} {s0 s : CellState}
    (h : g.get_cell c' = some s) :
    (g.set_cell c s0).get_cell c' = some s ∨
      (g.set_cell c s0).get_cell c' = some s0 := by
  by_cases hc : c' = c
  · subst hc
    unfold Grid.set_cell
    cases hcol : g.cells[c'.1]? with
    | none => exact Or.inl h
    | some col =>
      obtain ⟨hlt, -⟩ := List.getElem?_eq_some_iff.mp hcol
      simp only [Grid.get_cell]
      rw [List.getElem?_set_self hlt]
      simp only [Option.some_bind]
      by_cases h2 : c'.2 < col.length
      · rw [List.getElem?_set_self h2]
        exact Or.inr rfl
      · rw [List.set_eq_of_length_le (by omega)]
        left
        rw [Grid.get_cell, hcol] at h
        exact h
  · rw [Grid.get_cell_set_cell_ne _ hc]
    exact Or.inl h

/-- Frame of obstacle painting: all non-cell state is untouched and cells
only ever change to `Obstacle`. -/
structure DrawFrame (g g' : Grid) : Prop where
  astar_eq : g'.enable_astar = g.enable_astar
  start_eq : g'.start = g.start
  goal_eq : g'.goal = g.goal
  current_eq : g'.current = g.current
  current_dist_eq : g'.current_dist = g.current_dist
  unvisited_eq : g'.unvisited = g.unvisited
  width_eq : g'.width = g.width
  height_eq : g'.height = g.height
  shape : g.Shape → g'.Shape
  back : ∀ c s, g'.get_cell c = some s →
    g.get_cell c = some s ∨ s = CellState.Obstacle
  keep : ∀ c s, g.get_cell c = some s →
    g'.get_cell c = some s ∨ g'.get_cell c = some CellState.Obstacle

theorem DrawFrame.drefl (g : Grid) : DrawFrame g g :=
  ⟨rfl, rfl, rfl, rfl, rfl, rfl, rfl, rfl, fun h => h,
    fun _ _ h => Or.inl h, fun _ _ h => Or.inl h⟩

theorem DrawFrame.dtrans {g1 g2 g3 : Grid} (h12 : DrawFrame g1 g2)
    (h23 : DrawFrame g2 g3) : DrawFrame g1 g3 := by
  refine ⟨h23.astar_eq.trans h12.astar_eq, h23.start_eq.trans h12.start_eq,
    h23.goal_eq.trans h12.goal_eq, h23.current_eq.trans h12.current_eq,
    h23.current_dist_eq.trans h12.current_dist_eq,
    h23.unvisited_eq.trans h12.unvisited_eq,
    h23.width_eq.trans h12.width_eq, h23.height_eq.trans h12.height_eq,
    fun h => h23.shape (h12.shape h), ?_, ?_⟩
  · intro c s h
    rcases h23.back c s h with h2 | h2
    · exact h12.back c s h2
    · exact Or.inr h2
  · intro c s h
    rcases h12.keep c s h with h2 | h2
    · exact h23.keep c s h2
    · rcases h23.keep c _ h2 with h3 | h3
      · exact Or.inr h3
      · exact Or.inr h3

theorem drawFrame_set (g : Grid) (c : ℕ × ℕ) :
    DrawFrame g (g.set_cell c CellState.Obstacle) := by
  refine ⟨Grid.set_cell_enable_astar _ _ _, Grid.set_cell_start _ _ _,
    Grid.set_cell_goal _ _ _, Grid.set_cell_current _ _ _,
    Grid.set_cell_current_dist _ _ _, Grid.set_cell_unvisited _ _ _,
    Grid.set_cell_width _ _ _, Grid.set_cell_height _ _ _,
    fun h => Grid.set_cell_shape h, ?_, ?_⟩
  · intro c' s h
    rcases get_cell_set_cell_cases h with h2 | ⟨-, h2⟩
    · exact Or.inl h2
    · exact Or.inr h2
  · intro c' s h
    exact get_cell_set_cell_keep h

theorem draw_obstacle_frame (f : ℕ → ℕ) :
    ∀ (xs : List ℕ) (g : Grid), DrawFrame g
      (xs.foldl (fun g x => g.set_cell (x, f x) CellState.Obstacle) g) := by
  intro xs
  induction xs with
  | nil => intro g; exact DrawFrame.drefl g
  | cons x xs ih =>
    intro g
    exact (drawFrame_set g (x, f x)).dtrans (ih _)

theorem draw_obstacle_with_frame (g : Grid) (a b : ℕ × ℕ) (f : ℕ → ℕ) :
    DrawFrame g (g.draw_obstacle_with a b f) :=
  draw_obstacle_frame f _ g

theorem new_shape_facts {w h : ℕ} {s t : ℕ × ℕ} {m : Bool} {g : Grid}
    (heq : Grid.new w h s t m = some g) :
    g.Shape ∧ g.width = w ∧ g.height = h ∧ g.current = s ∧ g.start = s ∧
    g.goal = t ∧ g.current_dist = 0 ∧ g.unvisited = [] ∧ g.enable_astar = m ∧
    s.1 < w ∧ s.2 < h ∧ t.1 < w ∧ t.2 < h ∧
    g.get_cell s = some CellState.Unvisited ∧
    (∀ c s', g.get_cell c = some s' →
      s' = CellState.Unknown ∨ (c = s ∧ s' = CellState.Unvisited)) := by
  unfold Grid.new at heq
  split_ifs at heq with h1 h2
  · obtain ⟨w', rfl⟩ : ∃ w', w = w' + 1 := ⟨w - 1, by omega⟩
    set base : Grid :=
      { enable_astar := m
        cells := List.replicate (w' + 1) (List.replicate h CellState.Unknown)
        unvisited := []
        start := s
        current := s
        current_dist := 0
        goal := t } with hbase
    have hg : g = base.set_cell s CellState.Unvisited := (Option.some.inj heq).symm
    have bw : base.width = w' + 1 := by
      simp [Grid.width, hbase]
    have bh : base.height = h := by
      simp [Grid.height, hbase, List.replicate_succ]
    have bshape : base.Shape := by
      refine ⟨by omega, by rw [bh]; omega, ?_⟩
      intro col hcol
      rw [bh]
      have : col = List.replicate h CellState.Unknown := List.eq_of_mem_replicate hcol
      rw [this, List.length_replicate]
    have bget : ∀ c s', base.get_cell c = some s' → s' = CellState.Unknown := by
      intro c s' hc
      unfold Grid.get_cell at hc
      cases hcol : base.cells[c.1]? with
      | none => rw [hcol] at hc; simp at hc
      | some col =>
        rw [hcol] at hc
        simp only [Option.some_bind] at hc
        have hcol' : col = List.replicate h CellState.Unknown := by
          have := List.getElem?_replicate (n := w' + 1)
            (a := List.replicate h CellState.Unknown) (m := c.1)
          rw [show base.cells =
            List.replicate (w' + 1) (List.replicate h CellState.Unknown) from rfl] at hcol
          rw [this] at hcol
          by_cases hlt : c.1 < w' + 1
          · rw [if_pos hlt] at hcol
            exact (Option.some.inj hcol).symm
          · rw [if_neg hlt] at hcol
            simp at hcol
        rw [hcol'] at hc
        have := List.getElem?_replicate (n := h) (a := CellState.Unknown) (m := c.2)
        rw [this] at hc
        by_cases hlt : c.2 < h
        · rw [if_pos hlt] at hc
          exact (Option.some.inj hc).symm
        · rw [if_neg hlt] at hc
          simp at hc
    have binb : base.inb s := by
      unfold Grid.inb
      rw [bw, bh]
      exact ⟨h1.1, h1.2⟩
    have hsame : g.get_cell s = some CellState.Unvisited := by
      rw [hg]
      exact Grid.get_cell_set_cell_same _ bshape binb
    have hwidth : g.width = w' + 1 := by
      rw [hg, Grid.set_cell_width, bw]
    have hheight : g.height = h := by
      rw [hg, Grid.set_cell_height, bh]
    refine ⟨?_, hwidth, hheight, ?_, ?_, ?_, ?_, ?_, ?_, h1.1, h1.2, h2.1, h2.2, hsame, ?_⟩
    · rw [hg]; exact Grid.set_cell_shape bshape
    · rw [hg, Grid.set_cell_current]
    · rw [hg, Grid.set_cell_start]
    · rw [hg, Grid.set_cell_goal]
    · rw [hg, Grid.set_cell_current_dist]
    · rw [hg, Grid.set_cell_unvisited]
    · rw [hg, Grid.set_cell_enable_astar]
    · intro c s' hc
      rw [hg] at hc
      rcases get_cell_set_cell_cases hc with hb | ⟨hcs, hsv⟩
      · exact Or.inl (bget c s' hb)
      · exact Or.inr ⟨hcs, hsv⟩

/-- Summary of every state reachable before the first step. -/
structure InitFacts (g : Grid) : Prop where
  shape : g.Shape
  cur_eq : g.current = g.start
  cd0 : g.current_dist = 0
  heap : g.unvisited = []
  start_inb : g.inb g.start
  goal_inb : g.inb g.goal
  start_cell : g.get_cell g.start = some CellState.Unvisited ∨
    g.get_cell g.start = some CellState.Obstacle
  char : ∀ c s, g.get_cell c = some s →
    s = CellState.Unknown ∨ s = CellState.Obstacle ∨
      (c = g.start ∧ s = CellState.Unvisited)

theorem init_facts {g : Grid} (h : Init g) : InitFacts g := by
  induction h with
  | mk w h s t m g heq =>
    obtain ⟨hsh, hw, hh, hcur, hst, hgo, hcd, hun, -, hs1, hs2, ht1, ht2, hsame, hchar⟩ :=
      new_shape_facts heq
    refine ⟨hsh, by rw [hcur, hst], hcd, hun, ?_, ?_, ?_, ?_⟩
    · unfold Grid.inb
      rw [hw, hh, hst]
      exact ⟨hs1, hs2⟩
    · unfold Grid.inb
      rw [hw, hh, hgo]
      exact ⟨ht1, ht2⟩
    · left
      rw [hst]
      exact hsame
    · intro c s' hc
      rcases hchar c s' hc with h | ⟨h1, h2⟩
      · exact Or.inl h
      · exact Or.inr (Or.inr ⟨by rw [h1, hst], h2⟩)
  | obst g a b f hInit ih =>
    have hfr := draw_obstacle_with_frame g a b f
    refine ⟨hfr.shape ih.shape, ?_, ?_, ?_, ?_, ?_, ?_, ?_⟩
    · rw [hfr.current_eq, hfr.start_eq]
      exact ih.cur_eq
    · rw [hfr.current_dist_eq]
      exact ih.cd0
    · rw [hfr.unvisited_eq]
      exact ih.heap
    · unfold Grid.inb
      rw [hfr.width_eq, hfr.height_eq, hfr.start_eq]
      exact ih.start_inb
    · unfold Grid.inb
      rw [hfr.width_eq, hfr.height_eq, hfr.goal_eq]
      exact ih.goal_inb
    · rw [hfr.start_eq]
      rcases ih.start_cell with h | h
      · rcases hfr.keep _ _ h with h2 | h2
        · exact Or.inl h2
        · exact Or.inr h2
      · rcases hfr.keep _ _ h with h2 | h2
        · exact Or.inr h2
        · exact Or.inr h2
    · intro c s hc
      rcases hfr.back c s hc with h | h
      · rcases ih.char c s h with h2 | h2 | ⟨h2, h3⟩
        · exact Or.inl h2
        · exact Or.inr (Or.inl h2)
        · exact Or.inr (Or.inr ⟨by rw [h2, hfr.start_eq], h3⟩)
      · exact Or.inr (Or.inl h)

theorem init_inv {g : Grid} (h : Init g) : GInv g := by
  have hF := init_facts h
  have hGg : InvG g := by
    refine ⟨hF.shape, by rw [hF.cur_eq]; exact hF.start_inb, hF.start_inb, hF.goal_inb,
      ?_, ?_, ?_, ?_, ?_, ?_, ?_, ?_, ?_⟩
    · intro d hc
      rcases hF.char _ _ hc with h2 | h2 | ⟨-, h2⟩ <;> simp at h2
    · intro hc
      rcases hF.char _ _ hc with h2 | h2 | ⟨-, h2⟩ <;> simp at h2
    · intro h
      rw [hF.cur_eq, h]
    · intro _
      exact hF.cd0
    · intro h
      exact absurd hF.cur_eq h
    · intro _ c hc
      rcases hF.char _ _ hc with h2 | h2 | ⟨-, h2⟩ <;> simp at h2
    · intro c d hc
      rcases hF.char _ _ hc with h2 | h2 | ⟨-, h2⟩ <;> simp at h2
    · intro c d hc
      rcases hF.char _ _ hc with h2 | h2 | ⟨-, h2⟩ <;> simp at h2
    · intro c hc
      rcases hF.char _ _ hc with h2 | h2 | ⟨-, h2⟩ <;> simp at h2
  refine ⟨hGg, ?_⟩
  by_cases hterm : g.current = g.goal
  · exact Or.inl hterm
  · refine Or.inr (Or.inl ⟨⟨hterm, ?_, ?_, ?_, ?_, ?_, ?_, ?_, ?_, ?_, ?_, ?_, ?_⟩, ?_⟩)
    · rw [hF.cur_eq]
      rcases hF.start_cell with h | h
      · exact Or.inl h
      · exact Or.inr ⟨h, rfl, hF.cd0⟩
    · intro _
      exact hF.cur_eq
    · intro e he
      rw [hF.heap] at he
      simp at he
    · intro e he
      rw [hF.heap] at he
      simp at he
    · intro e he
      rw [hF.heap] at he
      simp at he
    · intro e he
      rw [hF.heap] at he
      simp at he
    · intro e he
      rw [hF.heap] at he
      simp at he
    · intro e he
      rw [hF.heap] at he
      simp at he
    · rw [hF.heap]
      simp
    · intro c hc
      rcases hF.char _ _ hc with h2 | h2 | ⟨h2, -⟩
      · simp at h2
      · simp at h2
      · left
        rw [h2, hF.cur_eq]
    · intro hcd
      rw [hF.cd0] at hcd
      omega
    · intro c d hc hd
      rcases hF.char _ _ hc with h2 | h2 | ⟨-, h2⟩ <;> simp at h2
    · intro e he
      rw [hF.heap] at he
      simp at he

theorem new_minv {w h : ℕ} {s t : ℕ × ℕ} {m : Bool} {g : Grid}
    (heq : Grid.new w h s t m = some g) : MPart g := by
  obtain ⟨-, -, -, hcur, hst, -, hcd, hun, -, -, -, -, -, hsame, hchar⟩ :=
    new_shape_facts heq
  refine ⟨?_, ?_, ?_, ?_⟩
  · intro c hc
    rcases hchar c _ hc with h2 | ⟨-, h2⟩ <;> simp at h2
  · intro e he
    rw [hun] at he
    simp at he
  · rw [hcd, hst, hcur, manhattan_self]
  · rw [hst, hsame]
    simp

theorem reachable_inv {g : Grid} (h : Reachable g) : GInv g := by
  induction h with
  | init g hInit => exact init_inv hInit
  | step g g' hR hstep ih =>
    obtain ⟨g'', heq, hI', -, -⟩ := step_spec ih
    rw [hstep] at heq
    rw [Option.some.inj heq]
    exact hI'

theorem reachableNO_inv {g : Grid} (h : ReachableNO g) : GInv g ∧ MPart g := by
  induction h with
  | init w h s t m g heq =>
    exact ⟨init_inv (Init.mk w h s t m g heq), new_minv heq⟩
  | step g g' hR hstep ih =>
    obtain ⟨g'', heq, hI', -, hM'⟩ := step_spec ih.1
    rw [hstep] at heq
    rw [Option.some.inj heq]
    exact ⟨hI', hM' ih.2⟩

/-! ### Frame of `draw_obstacle` by column -/

theorem draw_foldl_get_cell (f : ℕ → ℕ) (c : ℕ × ℕ) :
    ∀ (xs : List ℕ) (g : Grid), c.1 ∉ xs →
      (xs.foldl (fun g x => g.set_cell (x, f x) CellState.Obstacle) g).get_cell c =
        g.get_cell c := by
  intro xs
  induction xs with
  | nil =>
    intro g _
    rfl
  | cons x xs ih =>
    intro g hmem
    have hx1 : c.1 ≠ x := fun hh => hmem (hh ▸ List.mem_cons_self x xs)
    have hne : c ≠ (x, f x) := by
      intro hh
      exact hx1 (by rw [hh])
    rw [List.foldl_cons, ih _ (fun hh => hmem (List.mem_cons_of_mem x hh)),
      Grid.get_cell_set_cell_ne _ hne]

/-! ### The claims -/

/-- C1.  For every grid of an obstacle-free run (either mode), once the
search completes — the current cursor has reached the goal — the recorded
completion distance `current_dist` equals the Manhattan distance between
start and goal. -/
theorem C1_manhattan_at_completion {g : Grid} (h : ReachableNO g)
    (hc : g.current = g.goal) :
    g.current_dist = manhattan g.start g.goal := by
  have hM := (reachableNO_inv h).2
  rw [hM.cur_manhattan, hc]

/-- Witness for C1 on the completed 2×1 run. -/
theorem C1_witness :
    gA1.current = gA1.goal ∧ gA1.current_dist = manhattan gA1.start gA1.goal := by
  have hR : ReachableNO gA1 :=
    ReachableNO.step gA gA1
      (ReachableNO.init 2 1 (0, 0) (1, 0) false gA (by decide)) (by decide)
  exact ⟨by decide, C1_manhattan_at_completion hR (by decide)⟩

/-- C2 (amended).  Across every successful step from a reachable state the
cursor's priority key (`current_dist` plus the heuristic summand) is
non-decreasing, in both modes; in pure Dijkstra mode the key is exactly
`current_dist`, so the distances at which cells are settled (each step
settles the current cell at `current_dist`) are non-decreasing in
settlement order.  The original claim also asserted this monotonicity of
actual distances in A* mode, which `C2_counterexample` refutes. -/
theorem C2_key_monotone {g g' : Grid} (h : Reachable g)
    (hstep : g.dijkstra_iteration = some g') :
    g.curKey ≤ g'.curKey ∧
    (g.enable_astar = false → g.current_dist ≤ g'.current_dist) := by
  obtain ⟨g'', heq, -, hF, -⟩ := step_spec (reachable_inv h)
  rw [hstep] at heq
  obtain rfl : g' = g'' := Option.some.inj heq
  refine ⟨hF.key_mono, ?_⟩
  intro ha
  have ha' : g'.enable_astar = false := by rw [hF.astar_eq, ha]
  have hkey := hF.key_mono
  unfold Grid.curKey Grid.hg at hkey
  rw [ha, ha'] at hkey
  simpa using hkey

/-- Witness for C2 on the first step of the 2×1 Dijkstra run. -/
theorem C2_witness :
    gA.curKey ≤ gA1.curKey ∧
    (gA.enable_astar = false → gA.current_dist ≤ gA1.current_dist) :=
  C2_key_monotone
    (Reachable.init gA (Init.mk 2 1 (0, 0) (1, 0) false gA (by decide)))
    (by decide)

/-- Counterexample for C2: on the 7×7 A* run `g77` (a wall between start
and goal) the cursor's actual distance — the distance at which the current
cell is settled by the next step — goes from 4 after step 15 to 3 after
step 16, so actual distances of settled cells are not monotone in
settlement order in A* mode.  The popped priority keys meanwhile strictly
increase, 7 then 8: the key stays monotone while its heuristic summand
grows (3 for the cursor after step 15, 5 after step 16), so the
actual-distance component drops. -/
theorem C2_counterexample :
    Init g77 ∧ g77.enable_astar = true ∧
    (Grid.stepN g77 15).map Grid.current_dist = some 4 ∧
    (Grid.stepN g77 16).map Grid.current_dist = some 3 ∧
    (Grid.stepN g77 15).map Grid.curKey = some 7 ∧
    (Grid.stepN g77 16).map Grid.curKey = some 8 := by
  refine ⟨?_, by decide, by decide, by decide, by decide, by decide⟩
  unfold g77
  exact Init.obst _ (0, 4) (6, 4) (fun _ => 4)
    (Init.mk 7 7 (3, 3) (3, 5) true _ (by decide))

/-- C3 (amended).  `BinaryHeap::pop` on the modelled heap returns an entry
minimal by priority key, ties broken by smaller `actual_dist` — but among
entries tied on both, the one with the lexicographically LARGEST
coordinate is returned (the `Ord` impl reverses the two distance
comparisons and leaves the coordinate comparison unreversed, so the
coordinate order is not reversed in the max-heap), and the rest of the
heap is returned unchanged as a multiset.  The original claim's
"lexicographically smallest coordinate wins" is refuted by
`C3_counterexample`. -/
theorem C3_pop_min_max_cell {l : List UnvisitedState} {e : UnvisitedState}
    {r : List UnvisitedState} (h : popMax l = some (e, r)) :
    l.Perm (e :: r) ∧
    ∀ x ∈ l, e.dist ≤ x.dist ∧
      (x.dist = e.dist → e.actual_dist ≤ x.actual_dist) ∧
      (x.dist = e.dist → x.actual_dist = e.actual_dist →
        x.cell.1 < e.cell.1 ∨ (x.cell.1 = e.cell.1 ∧ x.cell.2 ≤ e.cell.2)) := by
  refine ⟨popMax_perm h, ?_⟩
  intro x hx
  have hmax := popMax_max h x hx
  rw [ne_eq, usCmp_eq_gt] at hmax
  omega

/-- Witness for C3: a three-entry heap with a full tie. -/
theorem C3_witness :
    ([⟨2, 2, (0, 0)⟩, ⟨1, 1, (5, 5)⟩, ⟨1, 1, (5, 2)⟩] : List UnvisitedState).Perm
      (⟨1, 1, (5, 5)⟩ :: [⟨2, 2, (0, 0)⟩, ⟨1, 1, (5, 2)⟩]) :=
  (C3_pop_min_max_cell (by decide)).1

/-- Counterexample for C3: two entries tied on key and actual distance;
pop returns the one with the lexicographically larger coordinate `(1,0)`,
not the smaller `(0,0)`. -/
theorem C3_counterexample :
    popMax [⟨0, 0, (0, 0)⟩, ⟨0, 0, (1, 0)⟩] =
      some (⟨0, 0, (1, 0)⟩, [⟨0, 0, (0, 0)⟩]) := by
  decide

/-- C4.  On every reachable state, every neighbour of the current cell in
`Visited` state has recorded distance at most `current_dist + 1` (the
bound of the source's `assert!`), and the step returns normally — the
modelled panics (the assert, the out-of-bounds unwrap and the OnPath
`unreachable!`) never fire. -/
theorem C4_visited_neighbor_bound {g : Grid} (h : Reachable g) :
    (∀ n ∈ g.get_neighbors g.current, ∀ d,
      g.get_cell n = some (CellState.Visited d) → d ≤ g.current_dist + 1) ∧
    ∃ g', g.dijkstra_iteration = some g' := by
  have hI := reachable_inv h
  refine ⟨?_, ?_⟩
  · intro n hn d hd
    exact visited_assert hI.1 hn hd
  · obtain ⟨g', heq, -, -, -⟩ := step_spec hI
    exact ⟨g', heq⟩

/-- Witness for C4 on the completed 2×1 state, whose current cell has a
`Visited 0` neighbour. -/
theorem C4_witness :
    (∀ n ∈ gA1.get_neighbors gA1.current, ∀ d,
      gA1.get_cell n = some (CellState.Visited d) → d ≤ gA1.current_dist + 1) ∧
    ∃ g', gA1.dijkstra_iteration = some g' :=
  C4_visited_neighbor_bound
    (Reachable.step gA gA1
      (Reachable.init gA (Init.mk 2 1 (0, 0) (1, 0) false gA (by decide)))
      (by decide))

/-- C5.  A step from a terminated reachable state — Completed (current is
the goal) or Exhausted (heap empty with the current cell already settled
at `current_dist`) — returns the state itself: every cell, `current`,
`current_dist` and the heap are unchanged. -/
theorem C5_terminated_idempotent {g : Grid} (h : Reachable g)
    (hterm : g.current = g.goal ∨ (g.unvisited = [] ∧
      g.get_cell g.current = some (CellState.Visited g.current_dist))) :
    g.dijkstra_iteration = some g := by
  rcases hterm with hc | ⟨hemp, hvis⟩
  · exact Grid.dijkstra_eq_completed hc
  · have hI := reachable_inv h
    rcases hI.2 with hc | ⟨hA, -⟩ | hexh
    · exact Grid.dijkstra_eq_completed hc
    · rcases hA.cur_state with hcs | ⟨hcs, -⟩
      · rw [hvis] at hcs
        simp at hcs
      · rw [hvis] at hcs
        simp at hcs
    · exact exh_noop hI.1 hexh

/-- Witness for C5 on the exhausted 1×2 state. -/
theorem C5_witness : gEx1.dijkstra_iteration = some gEx1 := by
  have hInit : Init gEx := by
    unfold gEx
    exact Init.obst _ (0, 1) (1, 1) (fun _ => 1)
      (Init.mk 1 2 (0, 0) (0, 1) false _ (by decide))
  exact C5_terminated_idempotent
    (Reachable.step gEx gEx1 (Reachable.init gEx hInit) (by decide))
    (Or.inr ⟨by decide, by decide⟩)

/-- C6 (amended).  At the entry of a step from a reachable state that is
neither Completed nor Exhausted, the current cell is `Unvisited` — except
in the one reachable violation: an obstacle painted over the start cell
before the first step, where the current cell is `Obstacle` and the step
nevertheless returns normally.  The source never inspects the current
cell's state, so a violation is silent continuation, not a panic; the
original claim's "violation causes a fatal failure" is refuted by
`C6_counterexample`. -/
theorem C6_entry_state {g : Grid} (h : Reachable g) (hne : g.current ≠ g.goal)
    (hnx : ∀ d, g.get_cell g.current ≠ some (CellState.Visited d)) :
    (g.get_cell g.current = some CellState.Unvisited ∨
      (g.get_cell g.current = some CellState.Obstacle ∧
        g.current = g.start ∧ g.current_dist = 0)) ∧
    ∃ g', g.dijkstra_iteration = some g' := by
  have hI := reachable_inv h
  refine ⟨?_, ?_⟩
  · rcases hI.2 with hc | ⟨hA, -⟩ | hexh
    · exact absurd hc hne
    · exact hA.cur_state
    · exact absurd hexh.cur_state (hnx _)
  · obtain ⟨g', heq, -, -, -⟩ := step_spec hI
    exact ⟨g', heq⟩

/-- Witness for C6 on the start-overpainted 2×1 state. -/
theorem C6_witness :
    (gOb.get_cell gOb.current = some CellState.Unvisited ∨
      (gOb.get_cell gOb.current = some CellState.Obstacle ∧
        gOb.current = gOb.start ∧ gOb.current_dist = 0)) ∧
    ∃ g', gOb.dijkstra_iteration = some g' := by
  have hInit : Init gOb := by
    unfold gOb
    exact Init.obst _ (0, 0) (1, 0) (fun _ => 0)
      (Init.mk 2 1 (0, 0) (1, 0) false _ (by decide))
  refine C6_entry_state (Reachable.init gOb hInit) (by decide) ?_
  intro d hd
  rw [show gOb.get_cell gOb.current = some CellState.Obstacle from by decide] at hd
  simp at hd

/-- Counterexample for C6: the reachable initial state `gOb` has its
current cell in `Obstacle` state (not `Unvisited`) at step entry, and the
step neither panics nor leaves the state unchanged — it silently
continues. -/
theorem C6_counterexample :
    Init gOb ∧ gOb.current ≠ gOb.goal ∧
    gOb.get_cell gOb.current = some CellState.Obstacle ∧
    gOb.dijkstra_iteration = some gOb1 ∧ gOb1 ≠ gOb := by
  refine ⟨?_, by decide, by decide, by decide, by decide⟩
  unfold gOb
  exact Init.obst _ (0, 0) (1, 0) (fun _ => 0)
    (Init.mk 2 1 (0, 0) (1, 0) false _ (by decide))

/-- C7 (amended).  After a successful construction the start cell is
`Unvisited` (Frontier) and the cursor sits on it with distance 0, but
nothing is pushed onto the heap: the frontier priority structure is empty
(`Grid::new` only calls `set_cell`).  The original claim's "an entry has
been pushed into the frontier structure" is refuted by
`C7_counterexample`. -/
theorem C7_construction {w h : ℕ} {s t : ℕ × ℕ} {m : Bool} {g : Grid}
    (heq : Grid.new w h s t m = some g) :
    g.get_cell s = some CellState.Unvisited ∧ g.current = s ∧ g.start = s ∧
    g.current_dist = 0 ∧ g.unvisited = [] := by
  obtain ⟨-, -, -, hcur, hst, -, hcd, hun, -, -, -, -, -, hsame, -⟩ :=
    new_shape_facts heq
  exact ⟨hsame, hcur, hst, hcd, hun⟩

/-- Witness for C7 on a 4×3 A* construction. -/
theorem C7_witness :
    gNew.get_cell (1, 2) = some CellState.Unvisited ∧ gNew.current = (1, 2) ∧
    gNew.start = (1, 2) ∧ gNew.current_dist = 0 ∧ gNew.unvisited = [] :=
  @C7_construction 4 3 (1, 2) (3, 0) true gNew (by decide)

/-- Counterexample for C7: a freshly constructed grid has an empty heap —
no entry for the start cell was pushed. -/
theorem C7_counterexample :
    (Grid.new 4 3 (1, 2) (3, 0) true).map Grid.unvisited = some [] := by
  decide

/-- C8 (amended).  On the 5×5 obstacle-free grid with start `(0,0)` and
goal `(4,4)`, the run completes (after 24 steps here, and stays completed)
with the goal's recorded distance 8 as claimed — but exactly 8 cells are
marked `OnPath` (the goal and the 7 interior path cells), not 9: the start
cell is never marked (`color_path` stops at the start without marking it,
as `C8_counterexample` shows). -/
theorem C8_five_by_five :
    Grid.stepN g55 24 = some g55c ∧ g55c.current = g55c.goal ∧
    g55c.current_dist = 8 ∧ Grid.countOnPath g55c = 8 ∧
    g55c.get_cell g55c.goal = some CellState.OnPath ∧
    g55c.get_cell g55c.start = some (CellState.Visited 0) := by
  refine ⟨by decide, by decide, by decide, by decide, by decide, by decide⟩

/-- Counterexample for C8: at the completed 5×5 state the `OnPath` count
is 8, not 9, and the start cell is still `Visited 0`, so the count cannot
include the start. -/
theorem C8_counterexample :
    Grid.stepN g55 24 = some g55c ∧ g55c.current = g55c.goal ∧
    Grid.countOnPath g55c = 8 ∧
    g55c.get_cell g55c.start ≠ some CellState.OnPath := by
  refine ⟨by decide, by decide, by decide, by decide⟩

/-- C9.  Across a completing step (a step from a non-completed reachable
state that ends with the cursor on the goal): the goal cell is never in
`Visited` state — not before the step, not after; at step entry it was
still unsettled (`Unvisited`, or `Unknown` when it is first discovered
during this very step); after the step it is `OnPath`; and the start cell
is not `OnPath` (the reconstruction loop stops at the start without
marking it). -/
theorem C9_goal_transition {g g' : Grid} (h : Reachable g)
    (hstep : g.dijkstra_iteration = some g') (hni : g.current ≠ g.goal)
    (hcomp : g'.current = g'.goal) :
    (∀ d, g.get_cell g.goal ≠ some (CellState.Visited d)) ∧
    (∀ d, g'.get_cell g'.goal ≠ some (CellState.Visited d)) ∧
    (g.get_cell g.goal = some CellState.Unvisited ∨
      g.get_cell g.goal = some CellState.Unknown) ∧
    g'.get_cell g'.goal = some CellState.OnPath ∧
    g'.get_cell g'.start ≠ some CellState.OnPath := by
  have hI := reachable_inv h
  obtain ⟨g'', heq, hI', hF, -⟩ := step_spec hI
  rw [hstep] at heq
  obtain rfl : g' = g'' := Option.some.inj heq
  obtain ⟨hentry, hafter⟩ := hF.complete_trans hcomp hni
  refine ⟨hI.1.goal_not_visited, hI'.1.goal_not_visited, hentry, ?_,
    hI'.1.start_not_onpath⟩
  rw [hF.goal_eq]
  exact hafter

/-- Witness for C9 on the completing step of the 2×1 run. -/
theorem C9_witness :
    (∀ d, gA.get_cell gA.goal ≠ some (CellState.Visited d)) ∧
    (∀ d, gA1.get_cell gA1.goal ≠ some (CellState.Visited d)) ∧
    (gA.get_cell gA.goal = some CellState.Unvisited ∨
      gA.get_cell gA.goal = some CellState.Unknown) ∧
    gA1.get_cell gA1.goal = some CellState.OnPath ∧
    gA1.get_cell gA1.start ≠ some CellState.OnPath :=
  C9_goal_transition
    (Reachable.init gA (Init.mk 2 1 (0, 0) (1, 0) false gA (by decide)))
    (by decide) (by decide) (by decide)

/-- C10.  `draw_obstacle` (for any float sampling behaviour, given by the
oracle `f`) is a complete no-op whenever `from.x ≥ to.x` — the x-range is
empty, including the vertical-segment case `from.x = to.x`, with no
failure — and in general never changes any cell whose x-coordinate lies
outside `[from.x, to.x)`. -/
theorem C10_draw_obstacle_frame (g : Grid) (a b : ℕ × ℕ) (f : ℕ → ℕ) :
    (b.1 ≤ a.1 → g.draw_obstacle_with a b f = g) ∧
    (∀ c : ℕ × ℕ, c.1 < a.1 ∨ b.1 ≤ c.1 →
      (g.draw_obstacle_with a b f).get_cell c = g.get_cell c) := by
  constructor
  · intro hle
    unfold Grid.draw_obstacle_with
    rw [Nat.sub_eq_zero_of_le hle]
    rfl
  · intro c hc
    unfold Grid.draw_obstacle_with
    apply draw_foldl_get_cell
    intro hmem
    have := List.mem_range'_1.mp hmem
    omega

/-- Witness for C10: a reversed segment is a no-op, and a painted column
leaves the other columns alone. -/
theorem C10_witness :
    gA.draw_obstacle_with (2, 0) (1, 5) (fun _ => 0) = gA ∧
    (gA.draw_obstacle_with (0, 0) (1, 0) (fun _ => 0)).get_cell (1, 0) =
      gA.get_cell (1, 0) :=
  ⟨(C10_draw_obstacle_frame gA (2, 0) (1, 5) (fun _ => 0)).1 (by decide),
   (C10_draw_obstacle_frame gA (0, 0) (1, 0) (fun _ => 0)).2 (1, 0) (by decide)⟩
